import Mathlib

/-!
Shallow embedding of the core components of a code-RAG system:
an AST-based source chunker, an incremental git-aware indexer,
a hybrid search engine, and a token-budgeted context assembler.

Python integers are modelled as Int (line numbers, token budgets),
sizes and list indices as Nat, and floating-point relevance scores
as rationals.  External collaborators (tokenizer, embedding model,
hash function, vector store, JSON serializer) are modelled as
injected functions, mirroring how the Python code receives them.
-/

/-! ## Python-semantics helpers -/

/-- Python `l[:n]` for an `Int` index: a negative index drops from the end. -/
def pyTake (n : Int) (l : List α) : List α :=
  if 0 ≤ n then l.take n.toNat else l.take (l.length - (-n).toNat)

/-- Python `l[-k:]`: the last `k` elements (the whole list when shorter). -/
def pyTakeLast (k : Nat) (l : List α) : List α :=
  l.drop (l.length - k)

/-- Python `content[a:b]` on text, with positions as character offsets. -/
def pySlice (s : String) (a b : Nat) : String :=
  String.mk ((s.data.drop a).take (b - a))

/-- Character-list prefix test. -/
def charsStartWith : List Char → List Char → Bool
  | [], _ => true
  | _ :: _, [] => false
  | c :: cs, d :: ds => c = d && charsStartWith cs ds

/-- Character-list contiguous-substring test. -/
def charsContain (needle : List Char) : List Char → Bool
  | [] => charsStartWith needle []
  | d :: ds => charsStartWith needle (d :: ds) || charsContain needle ds

/-- Python substring test `needle in hay`. -/
def strIn (needle hay : String) : Bool :=
  charsContain needle.data hay.data

/-- Python truthiness / membership rendering of an optional string in an
f-string: `None` prints as `"None"`. -/
def pyStrOpt : Option String → String
  | none => "None"
  | some s => s

/-- Python `str.strip()` of whitespace from both ends. -/
def pyStrip (s : String) : String :=
  String.mk (((s.data.dropWhile Char.isWhitespace).reverse.dropWhile
    Char.isWhitespace).reverse)

/-- Python `str.rstrip()` of whitespace from the right end. -/
def pyRstrip (s : String) : String :=
  String.mk ((s.data.reverse.dropWhile Char.isWhitespace).reverse)

/-- Python `str.strip(chars)`: strip any of the given characters from both
ends. -/
def pyStripChars (cs : List Char) (s : String) : String :=
  String.mk (((s.data.dropWhile (cs.contains ·)).reverse.dropWhile
    (cs.contains ·)).reverse)

/-- Python `len(line.split())`: number of whitespace-separated words. -/
def pyWordCount (s : String) : Nat :=
  ((s.split Char.isWhitespace).filter (· ≠ "")).length

/-- Python `s.count(c)` for a single character. -/
def pyCountChar (s : String) (c : Char) : Nat :=
  (s.data.filter (· = c)).length

/-- Python `', '.join(l)`. -/
def pyJoin (sep : String) : List String → String
  | [] => ""
  | [x] => x
  | x :: xs => x ++ sep ++ pyJoin sep xs

/-- Last component of a path string (Python `Path(p).name`). -/
def pyPathName (p : String) : String :=
  match (p.splitOn "/").reverse with
  | [] => p
  | x :: _ => x

/-- Python `Path(p).suffix`: the final extension including the dot,
empty for dotless or leading-dot-only names. -/
def pySuffix (p : String) : String :=
  let name := pyPathName p
  match (name.splitOn ".").reverse with
  | [] => ""
  | [_] => ""
  | ext :: rest =>
    if rest.reverse.headI = "" ∧ rest.length = 1 then "" else "." ++ ext

/-! Insertion-ordered dictionaries (Python `dict`), as association lists:
updates keep the key's position, new keys append at the end. -/

/-- Dictionary lookup (`d.get(k)`). -/
def dictGet (d : List (String × β)) (k : String) : Option β :=
  match d with
  | [] => none
  | p :: rest => if p.1 = k then some p.2 else dictGet rest k

/-- Dictionary lookup with default (`d.get(k, dflt)`). -/
def dictGetD (d : List (String × β)) (k : String) (dflt : β) : β :=
  (dictGet d k).getD dflt

/-- Dictionary membership (`k in d`). -/
def dictContains (d : List (String × β)) (k : String) : Bool :=
  (dictGet d k).isSome

/-- Dictionary update (`d[k] = v`), preserving insertion order. -/
def dictSet (d : List (String × β)) (k : String) (v : β) : List (String × β) :=
  match d with
  | [] => [(k, v)]
  | p :: rest => if p.1 = k then (k, v) :: rest else p :: dictSet rest k v

/-- Dictionary removal (`d.pop(k, ...)` key deletion part). -/
def dictRemove (d : List (String × β)) (k : String) : List (String × β) :=
  match d with
  | [] => []
  | p :: rest => if p.1 = k then rest else p :: dictRemove rest k

/-- Keys of a dictionary in insertion order (`d.keys()`). -/
def dictKeys (d : List (String × β)) : List String :=
  d.map Prod.fst

/-! Stable sorting.  Python's `list.sort` / `sorted` are stable; we model
them with a stable insertion sort parameterised by the sort key. -/

/-- Insert into a descending-sorted list, before the first element whose key
is not larger (stable for `reverse=True` sorts). -/
def insertDescBy (key : α → ℚ) (x : α) : List α → List α
  | [] => [x]
  | y :: ys => if key y ≤ key x then x :: y :: ys else y :: insertDescBy key x ys

/-- Stable descending sort by a rational key (Python
`sort(key=..., reverse=True)`). -/
def sortDescBy (key : α → ℚ) : List α → List α
  | [] => []
  | x :: xs => insertDescBy key x (sortDescBy key xs)

/-- Insert into an ascending-sorted list, before the first element whose key
is not smaller (stable). -/
def insertAscBy (key : α → String × String) (x : α) : List α → List α
  | [] => [x]
  | y :: ys =>
    if key x ≤ key y then x :: y :: ys else y :: insertAscBy key x ys

/-- Stable ascending sort by a string-pair key (Python `sort(key=...)`). -/
def sortAscBy (key : α → String × String) : List α → List α
  | [] => []
  | x :: xs => insertAscBy key x (sortAscBy key xs)

theorem insertDescBy_perm (key : α → ℚ) (x : α) (l : List α) :
    (insertDescBy key x l).Perm (x :: l) := by
  induction l with
  | nil => simp [insertDescBy]
  | cons y ys ih =>
    simp only [insertDescBy]
    split
    · exact List.Perm.refl _
    · exact ((ih.cons y).trans (List.Perm.swap x y ys))

theorem sortDescBy_perm (key : α → ℚ) (l : List α) :
    (sortDescBy key l).Perm l := by
  induction l with
  | nil => simp [sortDescBy]
  | cons x xs ih =>
    exact (insertDescBy_perm key x (sortDescBy key xs)).trans (ih.cons x)

theorem insertAscBy_perm (key : α → String × String) (x : α) (l : List α) :
    (insertAscBy key x l).Perm (x :: l) := by
  induction l with
  | nil => simp [insertAscBy]
  | cons y ys ih =>
    simp only [insertAscBy]
    split
    · exact List.Perm.refl _
    · exact ((ih.cons y).trans (List.Perm.swap x y ys))

theorem sortAscBy_perm (key : α → String × String) (l : List α) :
    (sortAscBy key l).Perm l := by
  induction l with
  | nil => simp [sortAscBy]
  | cons x xs ih =>
    exact (insertAscBy_perm key x (sortAscBy key xs)).trans (ih.cons x)

/-! ## AST chunker (src/chunking/ast_chunker.py)

Tree-sitter parse trees are modelled as `PyNode` values: the parser itself
is an external collaborator, so theorems quantify over the tree it returns.
Positions are character offsets into the file content. -/

/-- Chunk kinds (`ChunkType`). -/
inductive ChunkType where
  | FILE | MODULE | CLASS | METHOD | FUNCTION | BLOCK | PATTERN
deriving DecidableEq, Repr

/-- String value of a chunk kind (`ChunkType.value`). -/
def ChunkType.value : ChunkType → String
  | .FILE => "file"
  | .MODULE => "module"
  | .CLASS => "class"
  | .METHOD => "method"
  | .FUNCTION => "function"
  | .BLOCK => "block"
  | .PATTERN => "pattern"

/-- A chunk of source code (`CodeChunk`). -/
structure CodeChunk where
  id : String
  file_path : String
  chunk_type : ChunkType
  start_line : Int
  end_line : Int
  start_byte : Nat
  end_byte : Nat
  content : String
  docstring : Option String := none
  symbol_name : Option String := none
  parent_symbol : Option String := none
  signature : Option String := none
  imports : List String := []
  calls : List String := []
  dependencies : List String := []
  language : String := "python"
  complexity : Int := 0
  tokens_estimate : Int := 0
deriving DecidableEq, Repr

/-- Stable id of a chunk (`CodeChunk.compute_id`): the kind value, an
underscore, and the first 16 hex digits of the hash of
`"{file_path}:{symbol_name}:{content}"`.  The sha256 hexdigest is an
external library function, passed in as `hexdigest`. -/
def computeId (hexdigest : String → String) (c : CodeChunk) : String :=
  let content_hash := String.mk
    ((hexdigest (c.file_path ++ ":" ++ pyStrOpt c.symbol_name ++ ":" ++ c.content)).data.take 16)
  c.chunk_type.value ++ "_" ++ content_hash

/-- A tree-sitter parse-tree node. -/
inductive PyNode where
  | mk (type : String) (startRow startCol endRow endCol : Nat)
      (startByte endByte : Nat) (children : List PyNode)

/-- Node type tag. -/
def PyNode.type : PyNode → String
  | .mk t _ _ _ _ _ _ _ => t

/-- Row of `node.start_point`. -/
def PyNode.startRow : PyNode → Nat
  | .mk _ r _ _ _ _ _ _ => r

/-- Row of `node.end_point`. -/
def PyNode.endRow : PyNode → Nat
  | .mk _ _ _ r _ _ _ _ => r

/-- Node `start_byte`. -/
def PyNode.startByte : PyNode → Nat
  | .mk _ _ _ _ _ b _ _ => b

/-- Node `end_byte`. -/
def PyNode.endByte : PyNode → Nat
  | .mk _ _ _ _ _ _ b _ => b

/-- Node children. -/
def PyNode.children : PyNode → List PyNode
  | .mk _ _ _ _ _ _ _ cs => cs

mutual

/-- Pre-order search for all nodes of a type (`ASTChunker._find_nodes`). -/
def findNodes (t : String) : PyNode → List PyNode
  | .mk ty sr sc er ec sb eb cs =>
    (if ty = t then [PyNode.mk ty sr sc er ec sb eb cs] else []) ++ findNodesList t cs

/-- The list companion of `findNodes`. -/
def findNodesList (t : String) : List PyNode → List PyNode
  | [] => []
  | n :: ns => findNodes t n ++ findNodesList t ns

end

/-- First identifier child's text (`ASTChunker._get_node_name`). -/
def getNodeName (node : PyNode) (content : String) : String :=
  match node.children.find? (fun c => c.type = "identifier") with
  | some c => pySlice content c.startByte c.endByte
  | none => "unknown"

/-- Docstring of a function/class body (`ASTChunker._extract_docstring`). -/
def extractDocstring (node : PyNode) (content : String) : Option String :=
  match node.children.find? (fun c => c.type = "block") with
  | none => none
  | some body =>
    match body.children with
    | [] => none
    | first_stmt :: _ =>
      if first_stmt.type = "expression_statement" then
        match first_stmt.children with
        | [] => none
        | expr :: _ =>
          if expr.type = "string" then
            some (pyStrip (pyStripChars [Char.ofNat 39]
              (pyStripChars [Char.ofNat 34] (pySlice content expr.startByte expr.endByte))))
          else none
      else none

/-- Function signature text (`ASTChunker._get_function_signature`). -/
def getFunctionSignature (node : PyNode) (content : String) : String :=
  match node.children.find? (fun c => c.type = "parameters") with
  | some child =>
    "def " ++ getNodeName node content ++ pySlice content child.startByte child.endByte
  | none => ""

/-- Class signature text (`ASTChunker._get_class_signature`). -/
def getClassSignature (node : PyNode) (content : String) : String :=
  let name := getNodeName node content
  match node.children.find? (fun c => c.type = "argument_list") with
  | some child => "class " ++ name ++ pySlice content child.startByte child.endByte
  | none => "class " ++ name

/-- Class header up to the first method (`ASTChunker._get_class_header`). -/
def getClassHeader (node : PyNode) (content : String) : String :=
  match findNodes "function_definition" node with
  | child :: _ => pyRstrip (pySlice content node.startByte child.startByte)
  | [] => pySlice content node.startByte node.endByte

/-- Imported module names from top-level import statements
(`ASTChunker._extract_imports`). -/
def extractImports (root : PyNode) (content : String) : List String :=
  root.children.flatMap (fun node =>
    if node.type = "import_statement" then
      (node.children.filter (fun c => c.type = "dotted_name")).map
        (fun c => pySlice content c.startByte c.endByte)
    else if node.type = "import_from_statement" then
      match node.children.find? (fun c => c.type = "dotted_name") with
      | some c => [pySlice content c.startByte c.endByte]
      | none => []
    else [])

/-- Token estimate: content length divided by four
(`ASTChunker._estimate_tokens`). -/
def estimateTokens (text : String) : Int :=
  (text.length : Int) / 4

/-- Maximum tokens per chunk (`ASTChunker.MAX_CHUNK_TOKENS`). -/
def MAX_CHUNK_TOKENS : Int := 512

/-- Lines of overlap between consecutive blocks (`ASTChunker.OVERLAP_LINES`). -/
def OVERLAP_LINES : Nat := 3

/-- Text of a node: the content between its byte offsets. -/
def nodeText (content : String) (n : PyNode) : String :=
  pySlice content n.startByte n.endByte

/-- Symbol summary of a file (`ASTChunker._collect_symbols`); the methods
mapping is insertion-ordered like a Python dict. -/
structure Symbols where
  classes : List String
  functions : List String
  methods : List (String × List String)
deriving DecidableEq, Repr

/-- Collect classes, functions and methods from the top level of the tree
(`ASTChunker._collect_symbols`; node text is the content slice at the
node's byte offsets). -/
def collectSymbols (content : String) (root : PyNode) : Symbols :=
  root.children.foldl (fun sys node =>
    if node.type = "class_definition" then
      match node.children.find? (fun c => c.type = "identifier") with
      | some child =>
        let className := nodeText content child
        let methodNames := (findNodes "function_definition" node).filterMap
          (fun m => (m.children.find? (fun c => c.type = "identifier")).map
            (nodeText content))
        { sys with classes := sys.classes ++ [className],
                   methods := dictSet sys.methods className methodNames }
      | none => sys
    else if node.type = "function_definition" then
      match node.children.find? (fun c => c.type = "identifier") with
      | some child =>
        { sys with functions := sys.functions ++ [nodeText content child] }
      | none => sys
    else sys) ⟨[], [], []⟩

/-- Textual file description used as the File chunk's content
(`ASTChunker._generate_file_description`). -/
def generateFileDescription (path : String) (symbols : Symbols)
    (imports : List String) : String :=
  let l0 := ["File: " ++ pyPathName path, "Path: " ++ path, ""]
  let l1 := if imports ≠ [] then
      l0 ++ ["Imports: " ++ pyJoin ", " (imports.take 10)] else l0
  let l2 := if symbols.classes ≠ [] then
      (l1 ++ ["Classes: " ++ pyJoin ", " symbols.classes]) ++
        (symbols.methods.filterMap (fun p =>
          if p.2 ≠ [] then
            some ("  " ++ p.1 ++ " methods: " ++ pyJoin ", " (p.2.take 10))
          else none))
    else l1
  let l3 := if symbols.functions ≠ [] then
      l2 ++ ["Functions: " ++ pyJoin ", " symbols.functions] else l2
  pyJoin "\n" l3

/-- The synthetic File chunk (`ASTChunker._create_file_chunk`). -/
def createFileChunk (lang path content : String) (tree : PyNode) : CodeChunk :=
  let symbols := collectSymbols content tree
  let imports := extractImports tree content
  { id := "", file_path := path, chunk_type := .FILE,
    start_line := 0, end_line := (pyCountChar content (Char.ofNat 10) : Int),
    start_byte := 0, end_byte := content.length,
    content := generateFileDescription path symbols imports,
    imports := imports, language := lang }

/-- Scan of the leading module region: collects docstring/import parts and
the running max end line, stopping at the first definition
(the loop body of `ASTChunker._extract_module_chunk`). -/
def moduleScan (content : String) : List PyNode → List String × Nat
  | [] => ([], 0)
  | child :: rest =>
    if child.type = "expression_statement" then
      match child.children with
      | expr :: _ =>
        if expr.type = "string" then
          let r := moduleScan content rest
          (nodeText content child :: r.1, max r.2 child.endRow)
        else moduleScan content rest
      | [] => moduleScan content rest
    else if child.type = "import_statement" ∨ child.type = "import_from_statement" then
      let r := moduleScan content rest
      (nodeText content child :: r.1, max r.2 child.endRow)
    else if child.type = "function_definition" ∨ child.type = "class_definition" then
      ([], 0)
    else moduleScan content rest

/-- The Module chunk, when any docstring/import part exists
(`ASTChunker._extract_module_chunk`). -/
def extractModuleChunk (lang path content : String) (root : PyNode) :
    Option CodeChunk :=
  let r := moduleScan content root.children
  if r.1 = [] then none
  else some
    { id := "", file_path := path, chunk_type := .MODULE,
      start_line := 0, end_line := (r.2 : Int), start_byte := 0,
      end_byte := match root.children with | [] => 0 | c :: _ => c.endByte,
      content := pyJoin "\n" r.1, language := lang }

/-- Class and method chunks (`ASTChunker._extract_classes`): a small class
is one Class chunk; a large one becomes a Class header chunk plus one
Method chunk per contained function definition. -/
def extractClasses (lang path content : String) (root : PyNode) :
    List CodeChunk :=
  (findNodes "class_definition" root).flatMap (fun node =>
    let className := getNodeName node content
    let classContent := nodeText content node
    let docstring := extractDocstring node content
    if estimateTokens classContent ≤ MAX_CHUNK_TOKENS then
      [{ id := "", file_path := path, chunk_type := .CLASS,
         start_line := (node.startRow : Int), end_line := (node.endRow : Int),
         start_byte := node.startByte, end_byte := node.endByte,
         content := classContent, symbol_name := some className,
         docstring := docstring,
         signature := some (getClassSignature node content), language := lang }]
    else
      let classHeader := getClassHeader node content
      { id := "", file_path := path, chunk_type := .CLASS,
        start_line := (node.startRow : Int),
        end_line := (node.startRow : Int) + (pyCountChar classHeader (Char.ofNat 10) : Int),
        start_byte := node.startByte,
        end_byte := node.startByte + classHeader.length,
        content := classHeader, symbol_name := some className,
        docstring := docstring,
        signature := some (getClassSignature node content),
        language := lang } ::
      (findNodes "function_definition" node).map (fun methodNode =>
        { id := "", file_path := path, chunk_type := .METHOD,
          start_line := (methodNode.startRow : Int),
          end_line := (methodNode.endRow : Int),
          start_byte := methodNode.startByte, end_byte := methodNode.endByte,
          content := nodeText content methodNode,
          symbol_name := some (getNodeName methodNode content),
          parent_symbol := some className,
          docstring := extractDocstring methodNode content,
          signature := some (getFunctionSignature methodNode content),
          language := lang }))

/-- Called-function names within a node (`ASTChunker._extract_calls`).
The running `last_id` is threaded across call nodes like the Python local;
the Python code would raise NameError if the first attribute call had no
identifier child, modelled here by the initial empty string.  Python's
final `list(set(calls))` has interpreter-dependent order; it is modelled
as first-occurrence deduplication. -/
def extractCallsGo (content : String) (lastId : String) :
    List PyNode → List String
  | [] => []
  | callNode :: rest =>
    match callNode.children with
    | [] => extractCallsGo content lastId rest
    | func :: _ =>
      if func.type = "identifier" then
        nodeText content func :: extractCallsGo content lastId rest
      else if func.type = "attribute" then
        let lastId2 := func.children.foldl
          (fun acc c => if c.type = "identifier" then nodeText content c else acc)
          lastId
        lastId2 :: extractCallsGo content lastId2 rest
      else extractCallsGo content lastId rest

/-- Unique called names (`ASTChunker._extract_calls`). -/
def extractCalls (node : PyNode) (content : String) : List String :=
  (extractCallsGo content "" (findNodes "call" node)).eraseDups

/-- Triple-double-quote delimiter. -/
def tripleQuote : String := String.mk [Char.ofNat 34, Char.ofNat 34, Char.ofNat 34]

/-- Triple-single-quote delimiter. -/
def tripleTick : String := String.mk [Char.ofNat 39, Char.ofNat 39, Char.ofNat 39]

/-- Header scan of an oversized function: accumulates the signature and
docstring lines and finds the body start index (the first loop of
`ASTChunker._split_large_function`).  Takes the enumerated lines; returns
`(header_lines, body_start_idx)`. -/
def headerScan (inDoc : Bool) : List (Nat × String) → List String × Nat
  | [] => ([], 0)
  | (i, line) :: rest =>
    if strIn tripleQuote line ∨ strIn tripleTick line then
      if inDoc then ([line], i + 1)
      else
        let r := headerScan true rest
        (line :: r.1, r.2)
    else if i = 0 then
      let r := headerScan inDoc rest
      (line :: r.1, r.2)
    else if ¬ inDoc ∧ pyStrip line ≠ "" ∧ ¬ (pyStrip line).startsWith "#" then
      ([], i)
    else
      let r := headerScan inDoc rest
      (line :: r.1, r.2)

/-- Block accumulation over the body of an oversized function (the second
loop of `ASTChunker._split_large_function`): flush a Block chunk when a
line would push the running word-count estimate past 400 tokens, seeding
the next block with the last `OVERLAP_LINES` lines; the final partial
block is always flushed. -/
def blockScan (funcName lang path : String)
    (nodeStartRow nodeEndRow bodyStartIdx : Nat) :
    List (Nat × String) → List String → Nat → Nat → List CodeChunk
  | [], currentBlock, _, blockIdx =>
    if currentBlock = [] then []
    else
      [{ id := "", file_path := path, chunk_type := .BLOCK,
         start_line := (nodeEndRow : Int) - currentBlock.length,
         end_line := (nodeEndRow : Int), start_byte := 0, end_byte := 0,
         content := "# Part of " ++ funcName ++ "\n" ++ pyJoin "\n" currentBlock,
         symbol_name := some (funcName ++ "_block_" ++ toString blockIdx),
         parent_symbol := some funcName, language := lang }]
  | (i, line) :: rest, currentBlock, currentTokens, blockIdx =>
    let lineTokens := pyWordCount line + 1
    if currentTokens + lineTokens > 400 ∧ currentBlock ≠ [] then
      let blockContent := pyJoin "\n" currentBlock
      let blockStart : Int :=
        (nodeStartRow : Int) + bodyStartIdx + i - currentBlock.length
      let chunk : CodeChunk :=
        { id := "", file_path := path, chunk_type := .BLOCK,
          start_line := blockStart,
          end_line := blockStart + currentBlock.length,
          start_byte := 0, end_byte := 0,
          content := "# Part of " ++ funcName ++ "\n" ++ blockContent,
          symbol_name := some (funcName ++ "_block_" ++ toString blockIdx),
          parent_symbol := some funcName, language := lang }
      let newBlock := pyTakeLast OVERLAP_LINES currentBlock
      let newTokens := (newBlock.map (fun l => pyWordCount l + 1)).sum
      chunk :: blockScan funcName lang path nodeStartRow nodeEndRow bodyStartIdx
        rest (newBlock ++ [line]) (newTokens + lineTokens) (blockIdx + 1)
    else
      blockScan funcName lang path nodeStartRow nodeEndRow bodyStartIdx
        rest (currentBlock ++ [line]) (currentTokens + lineTokens) blockIdx

/-- Split an oversized function into a header chunk plus Block chunks
(`ASTChunker._split_large_function`). -/
def splitLargeFunction (lang path : String) (node : PyNode)
    (content funcName : String) : List CodeChunk :=
  let funcContent := nodeText content node
  let lines := funcContent.splitOn "\n"
  let hr := headerScan false lines.enum
  let headerContent := pyJoin "\n" hr.1
  let headerChunk : CodeChunk :=
    { id := "", file_path := path, chunk_type := .FUNCTION,
      start_line := (node.startRow : Int),
      end_line := (node.startRow : Int) + hr.1.length,
      start_byte := node.startByte,
      end_byte := node.startByte + headerContent.length,
      content := headerContent, symbol_name := some funcName,
      signature := some (getFunctionSignature node content), language := lang }
  let bodyLines := lines.drop hr.2
  headerChunk ::
    blockScan funcName lang path node.startRow node.endRow hr.2
      bodyLines.enum [] 0 0

/-- Top-level function chunks (`ASTChunker._extract_functions`): direct
children of the root only; oversized functions are split. -/
def extractFunctions (lang path content : String) (root : PyNode) :
    List CodeChunk :=
  root.children.flatMap (fun node =>
    if node.type ≠ "function_definition" then []
    else
      let funcName := getNodeName node content
      let funcContent := nodeText content node
      let docstring := extractDocstring node content
      if estimateTokens funcContent > MAX_CHUNK_TOKENS then
        splitLargeFunction lang path node content funcName
      else
        [{ id := "", file_path := path, chunk_type := .FUNCTION,
           start_line := (node.startRow : Int), end_line := (node.endRow : Int),
           start_byte := node.startByte, end_byte := node.endByte,
           content := funcContent, symbol_name := some funcName,
           docstring := docstring,
           signature := some (getFunctionSignature node content),
           calls := extractCalls node content, language := lang }])

/-- Chunk a parsed file (`ASTChunker.chunk_file`): File chunk, optional
Module chunk, class chunks, top-level function chunks; then every chunk
gets its stable id and token estimate. -/
def chunkFile (hexdigest : String → String) (lang path content : String)
    (tree : PyNode) : List CodeChunk :=
  let chunks :=
    [createFileChunk lang path content tree]
    ++ (extractModuleChunk lang path content tree).toList
    ++ extractClasses lang path content tree
    ++ extractFunctions lang path content tree
  chunks.map (fun c =>
    { c with id := computeId hexdigest c,
             tokens_estimate := estimateTokens c.content })

/-! ## Hybrid search engine (src/search/hybrid_search.py)

The Qdrant client, dense/sparse embedders and cross-encoder are injected
collaborators; the client is modelled as a function from store queries to
scored points. -/

/-- Search modes (`SearchMode`). -/
inductive SearchMode where
  | SEMANTIC | KEYWORD | HYBRID | EXACT
deriving DecidableEq, Repr

/-- A search query (`SearchQuery`), with the dataclass defaults. -/
structure SearchQuery where
  text : String
  mode : SearchMode := .HYBRID
  limit : Nat := 10
  min_score : ℚ := 1/2
  file_paths : Option (List String) := none
  languages : Option (List String) := none
  symbol_types : Option (List String) := none
  exclude_paths : Option (List String) := none
  with_payload : Bool := true
  with_vectors : Bool := false
  rerank : Bool := true
  deduplicate : Bool := true

/-- A Qdrant field match (`MatchValue` / `MatchAny`). -/
inductive SMatch where
  | value (v : String)
  | anyOf (vs : List String)
deriving DecidableEq, Repr

/-- A Qdrant field condition (`FieldCondition`). -/
structure SFieldCondition where
  key : String
  matchOn : SMatch
deriving DecidableEq, Repr

/-- A Qdrant filter (`Filter`). -/
structure SFilter where
  must : Option (List SFieldCondition) := none
  must_not : Option (List SFieldCondition) := none
deriving DecidableEq, Repr

/-- Payload of a stored point, with the fields the engine reads and their
`payload.get` defaults. -/
structure PointPayload where
  content : String := ""
  file_path : String := ""
  start_line : Int := 0
  end_line : Int := 0
  chunk_type : Option String := none
  symbol_name : Option String := none
deriving DecidableEq, Repr

/-- A scored point returned by the store. -/
structure ScoredPoint where
  id : String
  score : ℚ
  payload : PointPayload
deriving DecidableEq, Repr

/-- One prefetch leg of a fusion query (`Prefetch`). -/
inductive StorePrefetch where
  | dense (vector : List ℚ) (limit : Nat) (filter : Option SFilter)
  | sparse (indices : List Nat) (values : List ℚ) (limit : Nat)
      (filter : Option SFilter)
deriving DecidableEq, Repr

/-- A request issued to the store (`query_points` / `scroll`). -/
inductive StoreQuery where
  | dense (collection : String) (vector : List ℚ) (limit : Nat)
      (filter : Option SFilter) (withPayload : Bool)
  | sparse (collection : String) (indices : List Nat) (values : List ℚ)
      (limit : Nat) (filter : Option SFilter) (withPayload : Bool)
  | rrfFusion (collection : String) (prefetch : List StorePrefetch)
      (limit : Nat) (withPayload withVectors : Bool)
  | scroll (collection : String) (filter : SFilter) (limit : Nat)
      (withPayload : Bool)
deriving DecidableEq, Repr

/-- A search result (`SearchResult`). -/
structure SearchResult where
  id : String
  score : ℚ
  content : String
  file_path : String
  start_line : Int
  end_line : Int
  symbol_name : Option String := none
  chunk_type : Option String := none
  payload : PointPayload := {}
deriving DecidableEq, Repr

/-- Line-range overlap of two results in the same file
(`SearchResult.overlaps_with`). -/
def SearchResult.overlapsWith (a b : SearchResult) : Bool :=
  if a.file_path ≠ b.file_path then false
  else ! (a.end_line < b.start_line || a.start_line > b.end_line)

/-- RRF constant (`HybridSearchEngine.RRF_K`). -/
def RRF_K : Nat := 60

/-- The search engine (`HybridSearchEngine`) with its injected
collaborators. -/
structure HybridSearchEngine where
  client : StoreQuery → List ScoredPoint
  embed : String → List ℚ
  sparse_embed : Option (String → List Nat × List ℚ) := none
  rerank : Option (String → List String → List ℚ) := none

/-- Python truthiness of an optional list. -/
def optListTruthy : Option (List String) → Bool
  | none => false
  | some l => l ≠ []

/-- Build store filters from the query (`HybridSearchEngine._build_filters`). -/
def buildFilters (q : SearchQuery) : Option SFilter :=
  let conditions :=
    (if optListTruthy q.file_paths then
      [SFieldCondition.mk "file_path" (.anyOf (q.file_paths.getD []))] else [])
    ++ (if optListTruthy q.languages then
      [SFieldCondition.mk "language" (.anyOf (q.languages.getD []))] else [])
    ++ (if optListTruthy q.symbol_types then
      [SFieldCondition.mk "chunk_type" (.anyOf (q.symbol_types.getD []))] else [])
  let must_not :=
    if optListTruthy q.exclude_paths then
      (q.exclude_paths.getD []).map (fun p => SFieldCondition.mk "file_path" (.value p))
    else []
  if conditions = [] ∧ must_not = [] then none
  else some
    { must := if conditions ≠ [] then some conditions else none,
      must_not := if must_not ≠ [] then some must_not else none }

/-- Convert store points to results (`HybridSearchEngine._convert_results`). -/
def convertResults (points : List ScoredPoint) : List SearchResult :=
  points.map (fun p =>
    { id := p.id, score := p.score, content := p.payload.content,
      file_path := p.payload.file_path, start_line := p.payload.start_line,
      end_line := p.payload.end_line, symbol_name := p.payload.symbol_name,
      chunk_type := p.payload.chunk_type, payload := p.payload })

/-- Hybrid dense+sparse query with store-side RRF fusion
(`HybridSearchEngine._hybrid_search`). -/
def hybridSearch (e : HybridSearchEngine) (q : SearchQuery)
    (collection : String) (fc : Option SFilter) : List SearchResult :=
  let dense_vector := e.embed q.text
  let prefetch := [StorePrefetch.dense dense_vector (q.limit * 3) fc]
  let prefetch :=
    match e.sparse_embed with
    | some f =>
      prefetch ++ [StorePrefetch.sparse (f q.text).1 (f q.text).2 (q.limit * 3) fc]
    | none => prefetch
  convertResults (e.client
    (.rrfFusion collection prefetch (q.limit * 2) q.with_payload q.with_vectors))

/-- Dense-only query (`HybridSearchEngine._semantic_search`). -/
def semanticSearch (e : HybridSearchEngine) (q : SearchQuery)
    (collection : String) (fc : Option SFilter) : List SearchResult :=
  convertResults (e.client
    (.dense collection (e.embed q.text) (q.limit * 2) fc q.with_payload))

/-- Sparse-only query (`HybridSearchEngine._keyword_search`); raises
`ValueError` when no sparse embedder is configured. -/
def keywordSearch (e : HybridSearchEngine) (q : SearchQuery)
    (collection : String) (fc : Option SFilter) :
    Except String (List SearchResult) :=
  match e.sparse_embed with
  | none => .error "Sparse embedding function not configured"
  | some f =>
    .ok (convertResults (e.client
      (.sparse collection (f q.text).1 (f q.text).2 (q.limit * 2) fc
        q.with_payload)))

/-- Exact symbol-name lookup via payload scroll
(`HybridSearchEngine._exact_search`); the combined filter keeps only the
`must` conditions of the query filter, as in the source. -/
def exactSearch (e : HybridSearchEngine) (q : SearchQuery)
    (collection : String) (fc : Option SFilter) : List SearchResult :=
  let name_condition := SFieldCondition.mk "symbol_name" (.value q.text.toLower)
  let combined : SFilter :=
    match fc with
    | some f =>
      match f.must with
      | some ms => { must := some (ms ++ [name_condition]) }
      | none => { must := some [name_condition] }
    | none => { must := some [name_condition] }
  let points := e.client (.scroll collection combined q.limit q.with_payload)
  points.map (fun p =>
    { id := p.id, score := 1, content := p.payload.content,
      file_path := p.payload.file_path, start_line := p.payload.start_line,
      end_line := p.payload.end_line, symbol_name := p.payload.symbol_name,
      chunk_type := p.payload.chunk_type, payload := p.payload })

/-- Assign re-ranked scores pairwise (`zip` semantics: stops at the shorter
list, later results keep their old scores). -/
def assignScores : List SearchResult → List ℚ → List SearchResult
  | [], _ => []
  | rs, [] => rs
  | r :: rs, s :: ss => { r with score := s } :: assignScores rs ss

/-- Cross-encoder re-ranking (`HybridSearchEngine._rerank_results`):
recompute scores against the query text and stably re-sort descending. -/
def rerankResults (f : String → List String → List ℚ) (query_text : String)
    (results : List SearchResult) : List SearchResult :=
  if results = [] then results
  else
    let documents := results.map (fun r => r.content)
    let new_scores := f query_text documents
    sortDescBy (fun r => r.score) (assignScores results new_scores)

/-- Keep each result only if it overlaps no earlier-kept result
(`HybridSearchEngine._deduplicate_results`). -/
def deduplicateResults (results : List SearchResult) : List SearchResult :=
  results.foldl
    (fun dedup r =>
      if dedup.any (fun e => r.overlapsWith e) then dedup else dedup ++ [r])
    []

/-- The search pipeline (`HybridSearchEngine.search`): mode dispatch, then
optional re-rank, optional dedup, the `min_score` filter, and the `limit`
cut.  The Keyword-mode `ValueError` surfaces as `Except.error`. -/
def search (e : HybridSearchEngine) (q : SearchQuery) (collection : String) :
    Except String (List SearchResult) :=
  let fc := buildFilters q
  let dispatched : Except String (List SearchResult) :=
    match q.mode with
    | .EXACT => .ok (exactSearch e q collection fc)
    | .KEYWORD => keywordSearch e q collection fc
    | .SEMANTIC => .ok (semanticSearch e q collection fc)
    | .HYBRID => .ok (hybridSearch e q collection fc)
  match dispatched with
  | .error msg => .error msg
  | .ok results0 =>
    let results1 :=
      match e.rerank with
      | some f =>
        if q.rerank ∧ results0.length > 1 then rerankResults f q.text results0
        else results0
      | none => results0
    let results2 := if q.deduplicate then deduplicateResults results1 else results1
    let results3 := results2.filter (fun r => q.min_score ≤ r.score)
    .ok (results3.take q.limit)

/-- Fusion key of a result in `MultiLevelSearch._merge_results`:
`f"{file_path}:{start_line}"`. -/
def rrfKey (r : SearchResult) : String :=
  r.file_path ++ ":" ++ toString r.start_line

/-- The RRF score accumulation of `MultiLevelSearch._merge_results`: symbol
hits contribute `1.2 / (60 + rank)`, semantic hits `1 / (60 + rank)`, with
0-based ranks; dictionaries keep insertion order. -/
def mergeScores (symbols semantic : List SearchResult) :
    List (String × ℚ) × List (String × SearchResult) :=
  let k : ℚ := 60
  let step1 := symbols.enum.foldl
    (fun acc p =>
      let score : ℚ := 1 / (k + (p.1 : ℚ))
      let key := rrfKey p.2
      (dictSet acc.1 key (dictGetD acc.1 key 0 + score * (12/10)),
       dictSet acc.2 key p.2))
    ([], [])
  semantic.enum.foldl
    (fun acc p =>
      let score : ℚ := 1 / (k + (p.1 : ℚ))
      let key := rrfKey p.2
      (dictSet acc.1 key (dictGetD acc.1 key 0 + score),
       if dictContains acc.2 key then acc.2 else dictSet acc.2 key p.2))
    step1

/-- Merge symbol- and semantic-collection results with boosted RRF
(`MultiLevelSearch._merge_results`). -/
def mergeResults (symbols semantic : List SearchResult) (limit : Nat) :
    List SearchResult :=
  let acc := mergeScores symbols semantic
  let rrf_scores := acc.1
  let all_results := acc.2
  let sorted_keys :=
    sortDescBy (fun key => dictGetD rrf_scores key 0) (dictKeys rrf_scores)
  (sorted_keys.take limit).filterMap (fun key =>
    (dictGet all_results key).map (fun r =>
      { r with score := dictGetD rrf_scores key 0 }))

/-! ## Context assembler (src/context/context_assembler.py)

The tiktoken tokenizer is an external collaborator, injected as an
encode/decode pair; `count_tokens` is the length of the encoding. -/

/-- Priority classes (`ContextPriority`). -/
inductive ContextPriority where
  | CRITICAL | HIGH | MEDIUM | LOW | BACKGROUND
deriving DecidableEq, Repr

/-- Numeric weight of a priority class (`ContextPriority.value`). -/
def ContextPriority.value : ContextPriority → ℚ
  | .CRITICAL => 1
  | .HIGH => 8/10
  | .MEDIUM => 6/10
  | .LOW => 4/10
  | .BACKGROUND => 2/10

/-- A unit of assembled context (`ContextChunk`). -/
structure ContextChunk where
  content : String
  file_path : String
  start_line : Int
  end_line : Int
  priority : ContextPriority
  relevance_score : ℚ
  token_count : Int
  symbol_name : Option String := none
  chunk_type : Option String := none
  is_definition : Bool := false
deriving DecidableEq, Repr

/-- Combined sort score (`ContextChunk.effective_score`). -/
def ContextChunk.effective_score (c : ContextChunk) : ℚ :=
  c.relevance_score * c.priority.value

/-- The assembled context object (`AssembledContext`). -/
structure AssembledContext where
  chunks : List ContextChunk
  total_tokens : Int
  budget_used : ℚ
  files_included : Nat
  symbols_included : Nat
  truncated_chunks : Nat
deriving DecidableEq, Repr

/-- The injected tokenizer collaborator (tiktoken encoding). -/
structure Tokenizer where
  encode : String → List Nat
  decode : List Nat → String

/-- The assembler (`ContextAssembler`) with its constructor defaults. -/
structure ContextAssembler where
  max_tokens : Int := 8000
  reserve_tokens : Int := 1000
  tokenizer : Tokenizer

/-- Token count of a text (`ContextAssembler._count_tokens`). -/
def ContextAssembler.count_tokens (A : ContextAssembler) (text : String) : Int :=
  ((A.tokenizer.encode text).length : Int)

/-- Priority classification of a hit (`ContextAssembler._determine_priority`). -/
def determinePriority (result : SearchResult) (query : String) :
    ContextPriority :=
  if (match result.symbol_name with
      | some s => strIn s.toLower query.toLower
      | none => false) then .CRITICAL
  else if result.chunk_type = some "function" ∨ result.chunk_type = some "class"
      ∨ result.chunk_type = some "method" then .HIGH
  else if result.score > 8/10 then .HIGH
  else if result.score > 6/10 then .MEDIUM
  else .LOW

/-- Convert search results to context chunks
(`ContextAssembler._create_chunks`). -/
def createChunks (A : ContextAssembler) (search_results : List SearchResult)
    (query : String) : List ContextChunk :=
  search_results.map (fun result =>
    { content := result.content, file_path := result.file_path,
      start_line := result.start_line, end_line := result.end_line,
      priority := determinePriority result query,
      relevance_score := result.score,
      token_count := A.count_tokens result.content,
      symbol_name := result.symbol_name, chunk_type := result.chunk_type,
      is_definition := result.chunk_type = some "function"
        ∨ result.chunk_type = some "class" ∨ result.chunk_type = some "method" })

/-- Line-range overlap test (`ContextAssembler._chunks_overlap`). -/
def chunksOverlap (a b : ContextChunk) : Bool :=
  if a.file_path ≠ b.file_path then false
  else ! (a.end_line < b.start_line || a.start_line > b.end_line)

/-- Containment test (`ContextAssembler._chunk_contains`). -/
def chunkContains (outer inner : ContextChunk) : Bool :=
  if outer.file_path ≠ inner.file_path then false
  else outer.start_line ≤ inner.start_line && outer.end_line ≥ inner.end_line

/-- One step of the assembler's dedup loop: drop an overlapping chunk unless
it contains the first chunk it overlaps, in which case it replaces it. -/
def dedupStep (dedup : List ContextChunk) (chunk : ContextChunk) :
    List ContextChunk :=
  match dedup.find? (fun existing => chunksOverlap chunk existing) with
  | none => dedup ++ [chunk]
  | some existing =>
    if chunkContains chunk existing then (dedup.erase existing) ++ [chunk]
    else dedup

/-- Deduplication of overlapping chunks (`ContextAssembler._deduplicate`):
processed in descending effective-score order. -/
def deduplicate (chunks : List ContextChunk) : List ContextChunk :=
  (sortDescBy ContextChunk.effective_score chunks).foldl dedupStep []

/-- Truncate a chunk to a token budget (`ContextAssembler._truncate_chunk`):
cut the encoding 10 tokens short, append a truncation marker, and record
`token_count` as the full allowed budget. -/
def truncateChunk (A : ContextAssembler) (chunk : ContextChunk)
    (max_tokens : Int) : ContextChunk :=
  let tokens := A.tokenizer.encode chunk.content
  let truncated_tokens := pyTake (max_tokens - 10) tokens
  let truncated_content := A.tokenizer.decode truncated_tokens ++ "\n... (truncated)"
  { content := truncated_content, file_path := chunk.file_path,
    start_line := chunk.start_line, end_line := chunk.end_line,
    priority := chunk.priority, relevance_score := chunk.relevance_score,
    token_count := max_tokens, symbol_name := chunk.symbol_name,
    chunk_type := chunk.chunk_type, is_definition := chunk.is_definition }

/-- The budget-packing loop of `ContextAssembler._apply_budget`: returns the
selected chunks, the used token total, and the truncation count. -/
def applyBudgetGo (A : ContextAssembler) (avail : Int) :
    List ContextChunk → Int → List ContextChunk × Int × Nat
  | [], used => ([], used, 0)
  | chunk :: rest, used =>
    if avail ≤ used then ([], used, 0)
    else
      let remaining := avail - used
      if chunk.token_count ≤ remaining then
        let r := applyBudgetGo A avail rest (used + chunk.token_count)
        (chunk :: r.1, r.2)
      else if remaining > 100 then
        let truncated := truncateChunk A chunk remaining
        let r := applyBudgetGo A avail rest (used + truncated.token_count)
        (truncated :: r.1, r.2.1, r.2.2 + 1)
      else
        applyBudgetGo A avail rest used

/-- Budget application with statistics (`ContextAssembler._apply_budget`). -/
def applyBudget (A : ContextAssembler) (chunks : List ContextChunk) :
    List ContextChunk × Int × ℚ × Nat × Nat × Nat :=
  let available_tokens := A.max_tokens - A.reserve_tokens
  let r := applyBudgetGo A available_tokens chunks 0
  let selected := r.1
  let used_tokens := r.2.1
  let truncated_count := r.2.2
  let unique_files := ((selected.map (fun c => c.file_path)).eraseDups).length
  let unique_symbols :=
    ((selected.filterMap (fun c => c.symbol_name)).eraseDups).length
  (selected, used_tokens, used_tokens / A.max_tokens, unique_files,
   unique_symbols, truncated_count)

/-- Final ordering (`ContextAssembler._order_for_prompt`): definitions
sorted by (file path, symbol name), then the rest by descending effective
score. -/
def orderForPrompt (chunks : List ContextChunk) : List ContextChunk :=
  let definitions := chunks.filter (fun c => c.is_definition)
  let non_definitions := chunks.filter (fun c => ! c.is_definition)
  sortAscBy (fun c => (c.file_path, (c.symbol_name).getD "")) definitions
    ++ sortDescBy ContextChunk.effective_score non_definitions

/-- The assembly pipeline (`ContextAssembler.assemble`):
chunk conversion, (identity) definition enrichment, dedup, effective-score
sort, budget application, and final ordering. -/
def assemble (A : ContextAssembler) (search_results : List SearchResult)
    (query : String) : AssembledContext :=
  let chunks0 := createChunks A search_results query
  let chunks1 := deduplicate chunks0
  let chunks2 := sortDescBy ContextChunk.effective_score chunks1
  let r := applyBudget A chunks2
  let ordered := orderForPrompt r.1
  { chunks := ordered, total_tokens := r.2.1, budget_used := r.2.2.1,
    files_included := r.2.2.2.1, symbols_included := r.2.2.2.2.1,
    truncated_chunks := r.2.2.2.2.2 }

/-- Total token count of a chunk list. -/
def sumTokens (l : List ContextChunk) : Int :=
  (l.map (fun c => c.token_count)).sum

/-! ## Incremental indexer (src/indexing/incremental_indexer.py)

Git, the file system, the chunker, the embedder and the JSON serializer
are injected collaborators.  Store contents are modelled explicitly as the
two collections the indexer writes, and every chunker/embedder/store call
is recorded in an effect trace; state-file writes are recorded in a
separate file-system trace. -/

/-- Change kinds (`ChangeType`). -/
inductive ChangeType where
  | ADDED | MODIFIED | DELETED | RENAMED | COPIED
deriving DecidableEq, Repr

/-- A file-level change (`FileChange`). -/
structure FileChange where
  path : String
  change_type : ChangeType
  old_path : Option String := none
  content_hash : Option String := none
deriving DecidableEq, Repr

/-- The persisted index state (`IndexState`); the timestamp is an opaque
ISO string. -/
structure IndexState where
  git_commit : String
  indexed_files : List (String × String)
  last_updated : String
  total_chunks : Int
  total_files : Int
deriving DecidableEq, Repr

/-- Payload of an indexed point, as built by
`IncrementalIndexer._index_file`. -/
structure IndexPayload where
  content : String
  file_path : String
  start_line : Int
  end_line : Int
  chunk_type : String
  symbol_name : Option String
  parent_symbol : Option String
  docstring : Option String
  signature : Option String
  language : String
  tokens : Int
  git_hash : String
deriving DecidableEq, Repr

/-- A stored point (`PointStruct`). -/
structure IndexPoint where
  id : String
  vector : List ℚ
  payload : IndexPayload
deriving DecidableEq, Repr

/-- The two collections the indexer writes. -/
structure Store where
  semantic : List IndexPoint
  symbols : List IndexPoint
deriving DecidableEq, Repr

/-- One recorded chunker/embedder/store call. -/
inductive Effect where
  | chunkCall (path : String)
  | embedCall (text : String)
  | storeCount (collection : String) (path : String)
  | storeDelete (collection : String) (path : String)
  | storeScroll (collection : String) (path : String)
  | storeUpsert (collection : String) (points : List IndexPoint)
deriving DecidableEq, Repr

/-- Whether an effect is an embedding call. -/
def Effect.isEmbedCall : Effect → Bool
  | .embedCall _ => true
  | _ => false

/-- One recorded file-system action during state persistence. -/
inductive FsEffect where
  | write (path : String) (content : String)
  | replace (src : String) (target : String)
deriving DecidableEq, Repr

/-- State file name (`IncrementalIndexer.STATE_FILE`). -/
def STATE_FILE : String := ".rag_index_state.json"

/-- Supported extensions and languages
(`IncrementalIndexer.SUPPORTED_EXTENSIONS`). -/
def SUPPORTED_EXTENSIONS : List (String × String) :=
  [(".py", "python"), (".js", "javascript"), (".ts", "typescript"),
   (".tsx", "typescript"), (".jsx", "javascript"), (".go", "go"),
   (".rs", "rust"), (".java", "java"), (".rb", "ruby"), (".php", "php"),
   (".c", "c"), (".cpp", "cpp"), (".h", "c"), (".hpp", "cpp")]

/-- The indexer with its injected collaborators (`IncrementalIndexer`):
the repository file system, the sha256 hexdigest, the AST chunker, the
embedding function, git's current commit, the current timestamp, and the
JSON serializer used by `_save_state`. -/
structure IncrementalIndexer where
  files : String → Option String
  hashHex : String → String
  chunker : String → List CodeChunk
  embedder : String → List ℚ
  current_commit : String
  nowIso : String
  serialize : IndexState → String

/-- Content hash of a file (`GitChangeDetector.compute_file_hash`): empty
string for a missing file, else the hexdigest of its content. -/
def computeFileHash (idx : IncrementalIndexer) (path : String) : String :=
  match idx.files path with
  | none => ""
  | some content => idx.hashHex content

/-- Qdrant upsert semantics: replace points with matching ids in place,
append the rest. -/
def upsertInto (existing newPoints : List IndexPoint) : List IndexPoint :=
  (existing.map (fun p =>
    match newPoints.find? (fun q => q.id = p.id) with
    | some q => q
    | none => p))
  ++ newPoints.filter (fun q => ¬ existing.any (fun p => p.id = q.id))

/-- Apply an upsert to the addressed collection. -/
def storeUpsertOp (st : Store) (collection : String)
    (pts : List IndexPoint) : Store :=
  if collection = "code_semantic" then
    { st with semantic := upsertInto st.semantic pts }
  else if collection = "code_symbols" then
    { st with symbols := upsertInto st.symbols pts }
  else st

/-- Points of a collection whose payload path matches. -/
def pointsForPath (pts : List IndexPoint) (path : String) : List IndexPoint :=
  pts.filter (fun p => p.payload.file_path = path)

/-- Chunk, embed and upsert one file (`IncrementalIndexer._index_file`):
returns the fresh chunks, the new store, and the recorded calls.  A
missing file yields nothing; an empty chunking stops after the chunker
call. -/
def indexFile (idx : IncrementalIndexer) (st : Store) (file_path : String) :
    List CodeChunk × Store × List Effect :=
  match idx.files file_path with
  | none => ([], st, [])
  | some _ =>
    let ext := pySuffix file_path
    let language := dictGetD SUPPORTED_EXTENSIONS ext "unknown"
    let chunks := idx.chunker file_path
    if chunks = [] then ([], st, [.chunkCall file_path])
    else
      let contents := chunks.map (fun c => c.content)
      let embeddings := contents.map idx.embedder
      let points := (chunks.zip embeddings).map (fun pr =>
        { id := pr.1.id, vector := pr.2,
          payload :=
            { content := pr.1.content, file_path := file_path,
              start_line := pr.1.start_line, end_line := pr.1.end_line,
              chunk_type := pr.1.chunk_type.value,
              symbol_name := pr.1.symbol_name,
              parent_symbol := pr.1.parent_symbol,
              docstring := pr.1.docstring, signature := pr.1.signature,
              language := language, tokens := pr.1.tokens_estimate,
              git_hash := idx.current_commit } })
      let st1 := storeUpsertOp st "code_semantic" points
      let symbol_points := (points.zip chunks).filterMap (fun pr =>
        if pr.2.chunk_type.value = "function" ∨ pr.2.chunk_type.value = "class"
            ∨ pr.2.chunk_type.value = "method"
        then some pr.1 else none)
      let st2 := if symbol_points ≠ [] then
          storeUpsertOp st1 "code_symbols" symbol_points else st1
      (chunks, st2,
        [.chunkCall file_path] ++ contents.map Effect.embedCall
          ++ [.storeUpsert "code_semantic" points]
          ++ (if symbol_points ≠ [] then
              [.storeUpsert "code_symbols" symbol_points] else []))

/-- Delete a file's chunks from both collections
(`IncrementalIndexer._delete_file_chunks`); returns the semantic-collection
count, as the source does. -/
def deleteFileChunks (st : Store) (file_path : String) :
    Nat × Store × List Effect :=
  let deleted_count := (pointsForPath st.semantic file_path).length
  let st1 : Store :=
    { semantic := st.semantic.filter (fun p => ¬ p.payload.file_path = file_path),
      symbols := st.symbols.filter (fun p => ¬ p.payload.file_path = file_path) }
  (deleted_count, st1,
   [.storeCount "code_semantic" file_path,
    .storeDelete "code_semantic" file_path,
    .storeDelete "code_symbols" file_path])

/-- Patch the path of a renamed file's chunks
(`IncrementalIndexer._rename_file_chunks`): scroll the semantic collection
(limit 1000) for the old path, rewrite each payload's `file_path`, and
upsert; the symbol collection is not touched.  A `None` old path matches
no stored payload. -/
def renameFileChunks (st : Store) (old_path : Option String)
    (new_path : String) : Store × List Effect :=
  let matching :=
    match old_path with
    | some old => (pointsForPath st.semantic old).take 1000
    | none => []
  if matching = [] then (st, [.storeScroll "code_semantic" (pyStrOpt old_path)])
  else
    let updated_points := matching.map (fun p =>
      { p with payload := { p.payload with file_path := new_path } })
    (storeUpsertOp st "code_semantic" updated_points,
     [.storeScroll "code_semantic" (pyStrOpt old_path),
      .storeUpsert "code_semantic" updated_points])

/-- Per-pass statistics counters (the `stats` dict of
`IncrementalIndexer._incremental_update`). -/
structure UpdateStats where
  files_added : Nat := 0
  files_modified : Nat := 0
  files_deleted : Nat := 0
  chunks_added : Nat := 0
  chunks_deleted : Nat := 0
deriving DecidableEq, Repr

/-- Pointwise sum of statistics. -/
def addStats (a b : UpdateStats) : UpdateStats :=
  { files_added := a.files_added + b.files_added,
    files_modified := a.files_modified + b.files_modified,
    files_deleted := a.files_deleted + b.files_deleted,
    chunks_added := a.chunks_added + b.chunks_added,
    chunks_deleted := a.chunks_deleted + b.chunks_deleted }

/-- Process one change of an incremental pass (the loop body of
`IncrementalIndexer._incremental_update`).  `origFiles` is the loaded
state's file→hash map (read by the Modified branch), `files` the running
`new_indexed_files` map.  Returns the new store, the new running map, the
statistics delta, and the recorded calls. -/
def processChange (idx : IncrementalIndexer) (st : Store)
    (origFiles files : List (String × String)) (change : FileChange) :
    Store × List (String × String) × UpdateStats × List Effect :=
  match change.change_type with
  | .DELETED =>
    let r := deleteFileChunks st change.path
    (r.2.1, dictRemove files change.path,
     { files_deleted := 1, chunks_deleted := r.1 }, r.2.2)
  | .ADDED =>
    let r := indexFile idx st change.path
    let file_hash := computeFileHash idx change.path
    (r.2.1, dictSet files change.path file_hash,
     { files_added := 1, chunks_added := r.1.length }, r.2.2)
  | .MODIFIED =>
    let new_hash := computeFileHash idx change.path
    let old_hash := dictGet origFiles change.path
    if ¬ (some new_hash = old_hash) then
      let d := deleteFileChunks st change.path
      let r := indexFile idx d.2.1 change.path
      (r.2.1, dictSet files change.path new_hash,
       { files_modified := 1, chunks_added := r.1.length,
         chunks_deleted := d.1 },
       d.2.2 ++ r.2.2)
    else (st, files, {}, [])
  | .RENAMED =>
    let r := renameFileChunks st change.old_path change.path
    let files1 :=
      match change.old_path with
      | some old => dictRemove files old
      | none => files
    let old_hash :=
      match change.old_path with
      | some old => dictGetD files old ""
      | none => ""
    (r.1, dictSet files1 change.path old_hash, { files_modified := 1 }, r.2)
  | .COPIED => (st, files, {}, [])

/-- Result of an incremental pass. -/
structure UpdateResult where
  store : Store
  state : IndexState
  stats : UpdateStats
  trace : List Effect
  fsTrace : List FsEffect
deriving Repr

/-- State persistence (`IncrementalIndexer._save_state`): a single direct
`write_text` of the serialized state to the state file. -/
def saveStateFx (idx : IncrementalIndexer) (state : IndexState) :
    List FsEffect :=
  [FsEffect.write STATE_FILE (idx.serialize state)]

/-- An incremental pass (`IncrementalIndexer._incremental_update`): filter
the reported changes to supported extensions, fold the per-change
processing over the store and hash map, build the new state, and persist
it at the end. -/
def incrementalUpdate (idx : IncrementalIndexer) (st : Store)
    (state : IndexState) (changes : List FileChange)
    (extensions : List String) : UpdateResult :=
  let changesF := changes.filter (fun c =>
    extensions.any (fun ext => c.path.endsWith ext))
  let folded := changesF.foldl
    (fun acc c =>
      let r := processChange idx acc.1 state.indexed_files acc.2.1 c
      (r.1, r.2.1, addStats acc.2.2.1 r.2.2.1, acc.2.2.2 ++ r.2.2.2))
    (st, state.indexed_files, {}, [])
  let new_state : IndexState :=
    { git_commit := idx.current_commit,
      indexed_files := folded.2.1,
      last_updated := idx.nowIso,
      total_chunks := state.total_chunks + (folded.2.2.1.chunks_added : Int)
        - (folded.2.2.1.chunks_deleted : Int),
      total_files := (folded.2.1.length : Int) }
  { store := folded.1, state := new_state, stats := folded.2.2.1,
    trace := folded.2.2.2, fsTrace := saveStateFx idx new_state }

/-- Modelled from the spec: the write-temp-then-replace persistence pattern
("written via write-temp-then-replace to avoid partial writes surviving a
crash"), for comparison with what `_save_state` actually does. -/
def SpecAtomicWrite (tr : List FsEffect) (target : String) : Prop :=
  ∃ tmp content, tmp ≠ target ∧
    tr = [FsEffect.write tmp content, FsEffect.replace tmp target]

/-! ## Supporting lemmas for the budget packer -/

theorem truncateChunk_token_count (A : ContextAssembler) (c : ContextChunk)
    (m : Int) : (truncateChunk A c m).token_count = m := by
  simp [truncateChunk]

theorem applyBudgetGo_le (A : ContextAssembler) (avail : Int)
    (l : List ContextChunk) (used : Int) (h : used ≤ avail) :
    (applyBudgetGo A avail l used).2.1 ≤ avail := by
  induction l generalizing used with
  | nil => simpa [applyBudgetGo] using h
  | cons c rest ih =>
    by_cases h1 : avail ≤ used
    · simpa [applyBudgetGo, h1] using h
    · by_cases h2 : c.token_count ≤ avail - used
      · have := ih (used + c.token_count) (by linarith)
        simpa [applyBudgetGo, h1, h2] using this
      · by_cases h3 : avail - used > 100
        · have hkey : used + (truncateChunk A c (avail - used)).token_count = avail := by
            rw [truncateChunk_token_count]; ring
          have := ih (used + (truncateChunk A c (avail - used)).token_count)
            (le_of_eq hkey)
          simpa [applyBudgetGo, h1, h2, h3] using this
        · have := ih used h
          simpa [applyBudgetGo, h1, h2, h3] using this

theorem applyBudgetGo_sum (A : ContextAssembler) (avail : Int)
    (l : List ContextChunk) (used : Int) :
    (applyBudgetGo A avail l used).2.1 =
      used + sumTokens (applyBudgetGo A avail l used).1 := by
  induction l generalizing used with
  | nil => simp [applyBudgetGo, sumTokens]
  | cons c rest ih =>
    by_cases h1 : avail ≤ used
    · simp [applyBudgetGo, h1, sumTokens]
    · by_cases h2 : c.token_count ≤ avail - used
      · have := ih (used + c.token_count)
        simp only [applyBudgetGo, h1, h2, if_true, if_false, if_neg, if_pos]
        simp [applyBudgetGo, h1, h2, sumTokens] at this ⊢
        omega
      · by_cases h3 : avail - used > 100
        · have := ih (used + (truncateChunk A c (avail - used)).token_count)
          simp [applyBudgetGo, h1, h2, h3, sumTokens] at this ⊢
          omega
        · have := ih used
          simp [applyBudgetGo, h1, h2, h3, sumTokens] at this ⊢
          omega

theorem sumTokens_perm {l₁ l₂ : List ContextChunk} (h : l₁.Perm l₂) :
    sumTokens l₁ = sumTokens l₂ := by
  unfold sumTokens
  exact (h.map (fun c => c.token_count)).sum_eq

theorem orderForPrompt_perm (l : List ContextChunk) :
    (orderForPrompt l).Perm l := by
  unfold orderForPrompt
  have h1 := sortAscBy_perm (fun c : ContextChunk => (c.file_path, (c.symbol_name).getD ""))
    (l.filter (fun c => c.is_definition))
  have h2 := sortDescBy_perm ContextChunk.effective_score
    (l.filter (fun c => ! c.is_definition))
  exact (h1.append h2).trans (List.filter_append_perm _ l)

/-- C1: whenever the reserve does not exceed the maximum, the total token
count of the chunks of an `AssembledContext` returned by
`ContextAssembler.assemble` is at most `maxTokens - reserveTokens` (hits
that do not fit whole are truncated to the remaining budget only when it
exceeds the 100-token minimum — the truncation path of `applyBudgetGo`). -/
theorem assemble_budget_law (A : ContextAssembler)
    (results : List SearchResult) (query : String)
    (h : A.reserve_tokens ≤ A.max_tokens) :
    sumTokens (assemble A results query).chunks ≤
      A.max_tokens - A.reserve_tokens := by
  have h0 : (0 : Int) ≤ A.max_tokens - A.reserve_tokens := by linarith
  set chunks2 :=
    sortDescBy ContextChunk.effective_score
      (deduplicate (createChunks A results query)) with hc
  have hchunks : (assemble A results query).chunks =
      orderForPrompt (applyBudgetGo A (A.max_tokens - A.reserve_tokens) chunks2 0).1 := by
    simp [assemble, applyBudget, hc]
  rw [hchunks, sumTokens_perm (orderForPrompt_perm _)]
  have hsum := applyBudgetGo_sum A (A.max_tokens - A.reserve_tokens) chunks2 0
  have hle := applyBudgetGo_le A (A.max_tokens - A.reserve_tokens) chunks2 0 h0
  linarith

/-- A simple concrete tokenizer for witnesses: one token per character. -/
def tokW : Tokenizer :=
  { encode := fun s => s.data.map Char.toNat,
    decode := fun l => String.mk (l.map Char.ofNat) }

/-- Assembler with the constructor defaults (8000/1000). -/
def AW : ContextAssembler := { tokenizer := tokW }

/-- A concrete hit for witnesses. -/
def rW : SearchResult :=
  { id := "w", score := 1, content := "wc", file_path := "w.py",
    start_line := 1, end_line := 2 }

/-- Witness for C1 at a concrete assembler and hit list. -/
theorem assemble_budget_law_witness :
    sumTokens (assemble AW [rW] "query").chunks ≤
      AW.max_tokens - AW.reserve_tokens :=
  assemble_budget_law AW [rW] "query" (by decide)

/-- A misconfigured assembler whose reserve exceeds its maximum. -/
def ABad : ContextAssembler :=
  { max_tokens := 100, reserve_tokens := 200, tokenizer := tokW }

/-- C1 counterexample: with `maxTokens = 100` and `reserveTokens = 200`
the claimed bound fails (the assembled total is 0, but
`maxTokens - reserveTokens` is negative), so the law does not hold for
every configuration. -/
theorem assemble_budget_law_counterexample :
    ¬ (sumTokens (assemble ABad [] "q").chunks ≤
        ABad.max_tokens - ABad.reserve_tokens) := by
  decide

/-- C10: the packer's selection is not a prefix of the hit list: a hit that
does not fit while the remaining budget is at or below the 100-token floor
is skipped alone — `applyBudgetGo` continues with the remaining hits and
the same used total — and the loop short-circuits exactly when the used
total has reached the available budget. -/
theorem apply_budget_skip (A : ContextAssembler) (avail used : Int)
    (c : ContextChunk) (rest : List ContextChunk)
    (h1 : ¬ avail ≤ used) (h2 : ¬ c.token_count ≤ avail - used)
    (h3 : ¬ avail - used > 100) :
    (applyBudgetGo A avail (c :: rest) used = applyBudgetGo A avail rest used)
    ∧ (∀ (l : List ContextChunk) (u : Int), avail ≤ u →
        applyBudgetGo A avail l u = ([], u, 0)) := by
  constructor
  · simp [applyBudgetGo, h1, h2, h3]
  · intro l u hu
    cases l <;> simp [applyBudgetGo, hu]

/-- An oversized concrete chunk (60 tokens). -/
def cBig : ContextChunk :=
  { content := "big", file_path := "f.py", start_line := 1, end_line := 2,
    priority := .HIGH, relevance_score := 1, token_count := 60 }

/-- A small concrete chunk (40 tokens). -/
def cSmall : ContextChunk :=
  { content := "small", file_path := "f.py", start_line := 10, end_line := 11,
    priority := .LOW, relevance_score := 1, token_count := 40 }

/-- Witness for C10: with 50 available tokens, the 60-token head is skipped
(50 is at the truncation floor) and the later 40-token hit is still
included whole, so the selection is not a prefix. -/
theorem apply_budget_skip_witness :
    (applyBudgetGo AW 50 [cBig, cSmall] 0 = applyBudgetGo AW 50 [cSmall] 0)
    ∧ (applyBudgetGo AW 50 [cSmall] 0).1 = [cSmall] :=
  ⟨(apply_budget_skip AW 50 0 cBig [cSmall] (by decide) (by decide)
      (by decide)).1,
    by decide⟩

/-! ## Search pipeline theorems -/

/-- An engine with no sparse embedder and an empty store. -/
def eNoSparse : HybridSearchEngine :=
  { client := fun _ => [], embed := fun _ => [] }

/-- A Keyword-mode query with the dataclass defaults. -/
def qKeyword : SearchQuery := { text := "q", mode := .KEYWORD }

/-- C3 counterexample: a Keyword-mode query on an engine with no
sparse-embedding collaborator fails with the `ValueError` message — there
is no fallback to Semantic search and no recorded warning. -/
theorem keyword_no_fallback_counterexample :
    search eNoSparse qKeyword "code_semantic" =
      Except.error "Sparse embedding function not configured" := rfl

/-- C3 (amended): for every query in Keyword mode on an engine with no
sparse-embedding collaborator, `HybridSearchEngine.search` raises
`ValueError("Sparse embedding function not configured")` instead of
falling back to Semantic search. -/
theorem keyword_mode_raises (e : HybridSearchEngine) (q : SearchQuery)
    (collection : String) (hs : e.sparse_embed = none)
    (hm : q.mode = SearchMode.KEYWORD) :
    search e q collection =
      Except.error "Sparse embedding function not configured" := by
  simp [search, keywordSearch, hm, hs]

/-- Witness for the amended C3 at a concrete engine and query. -/
theorem keyword_mode_raises_witness :
    search eNoSparse { text := "find usages", mode := .KEYWORD } "code_symbols" =
      Except.error "Sparse embedding function not configured" :=
  keyword_mode_raises eNoSparse { text := "find usages", mode := .KEYWORD }
    "code_symbols" rfl rfl

theorem search_ok_shape (e : HybridSearchEngine) (q : SearchQuery)
    (collection : String) (rs : List SearchResult)
    (h : search e q collection = Except.ok rs) :
    ∃ l : List SearchResult,
      rs = (l.filter (fun r => q.min_score ≤ r.score)).take q.limit := by
  unfold search at h
  cases hm : q.mode <;> simp only [hm] at h
  case SEMANTIC => exact ⟨_, by injection h with h2; exact h2.symm⟩
  case HYBRID => exact ⟨_, by injection h with h2; exact h2.symm⟩
  case EXACT => exact ⟨_, by injection h with h2; exact h2.symm⟩
  case KEYWORD =>
    unfold keywordSearch at h
    cases hs : e.sparse_embed with
    | none => rw [hs] at h; exact absurd h (by simp)
    | some f => rw [hs] at h; exact ⟨_, by injection h with h2; exact h2.symm⟩

/-- C9: in every mode, a successful `HybridSearchEngine.search` returns at
most `query.limit` results, and every returned result's score is at least
`query.min_score`; the threshold and cut are the final pipeline steps,
applied after fusion, re-rank and deduplication. -/
theorem search_limit_and_min_score (e : HybridSearchEngine) (q : SearchQuery)
    (collection : String) (rs : List SearchResult)
    (h : search e q collection = Except.ok rs) :
    rs.length ≤ q.limit ∧ ∀ r ∈ rs, q.min_score ≤ r.score := by
  obtain ⟨l, rfl⟩ := search_ok_shape e q collection rs h
  constructor
  · rw [List.length_take]
    exact min_le_left _ _
  · intro r hr
    have hmem := List.mem_of_mem_take hr
    have := (List.mem_filter.mp hmem).2
    exact of_decide_eq_true this

/-- A Hybrid-mode query with the dataclass defaults. -/
def qHybrid : SearchQuery := { text := "q" }

/-- Witness for C9 at a concrete engine and query. -/
theorem search_limit_and_min_score_witness :
    ([] : List SearchResult).length ≤ qHybrid.limit ∧
      ∀ r ∈ ([] : List SearchResult), qHybrid.min_score ≤ r.score :=
  search_limit_and_min_score eNoSparse qHybrid "code_semantic" [] rfl

/-! ## State-persistence theorems -/

/-- A concrete indexer over an empty repository for counterexamples and
witnesses; the serializer is a stand-in for `json.dumps`. -/
def idxW : IncrementalIndexer :=
  { files := fun _ => none, hashHex := fun s => s, chunker := fun _ => [],
    embedder := fun _ => [], current_commit := "c0", nowIso := "t0",
    serialize := fun st => st.git_commit ++ "|" ++ st.last_updated }

/-- A concrete loaded index state. -/
def stateW : IndexState :=
  { git_commit := "c0", indexed_files := [("a.py", "h1")],
    last_updated := "t0", total_chunks := 0, total_files := 1 }

/-- C8 counterexample: `_save_state` performs a single direct write of the
state file; it is not the claimed write-temp-then-replace pattern. -/
theorem save_state_not_atomic_counterexample :
    ¬ SpecAtomicWrite (saveStateFx idxW stateW) STATE_FILE := by
  rintro ⟨tmp, c, hne, heq⟩
  exact absurd heq (by simp [saveStateFx])

/-- C8 (amended): an incremental pass emits exactly one file-system action:
a single direct write of the serialized final state to the state file,
after all changes have been processed — not a temp-file write followed by
a replace. -/
theorem incremental_update_single_direct_write (idx : IncrementalIndexer)
    (st : Store) (state : IndexState) (changes : List FileChange)
    (extensions : List String) :
    (incrementalUpdate idx st state changes extensions).fsTrace =
      [FsEffect.write STATE_FILE
        (idx.serialize (incrementalUpdate idx st state changes extensions).state)]
    ∧ ¬ SpecAtomicWrite
        (incrementalUpdate idx st state changes extensions).fsTrace STATE_FILE := by
  constructor
  · rfl
  · rintro ⟨tmp, c, hne, heq⟩
    have h1 : (incrementalUpdate idx st state changes extensions).fsTrace =
        [FsEffect.write STATE_FILE
          (idx.serialize (incrementalUpdate idx st state changes extensions).state)] := rfl
    rw [h1] at heq
    exact absurd heq (by simp)

/-! ## Dictionary lemmas -/

theorem dictGet_dictSet_self (d : List (String × β)) (k : String) (v : β) :
    dictGet (dictSet d k v) k = some v := by
  induction d with
  | nil => simp [dictGet, dictSet]
  | cons p rest ih =>
    by_cases h : p.1 = k
    · simp [dictGet, dictSet, h]
    · simp [dictGet, dictSet, h, ih]

theorem dictGet_dictSet_ne (d : List (String × β)) (k k2 : String) (v : β)
    (h : k2 ≠ k) : dictGet (dictSet d k v) k2 = dictGet d k2 := by
  have hkk : ¬ (k = k2) := fun he => h he.symm
  induction d with
  | nil => simp [dictGet, dictSet, hkk]
  | cons p rest ih =>
    by_cases hp : p.1 = k
    · have hp2 : ¬ p.1 = k2 := by rw [hp]; exact hkk
      simp [dictGet, dictSet, hp, hp2, hkk]
    · by_cases hp2 : p.1 = k2
      · simp [dictGet, dictSet, hp, hp2, h]
      · simp [dictGet, dictSet, hp, hp2, ih]

theorem dictGet_dictRemove_self (d : List (String × β)) (k : String)
    (h : (d.map Prod.fst).Nodup) : dictGet (dictRemove d k) k = none := by
  induction d with
  | nil => simp [dictGet, dictRemove]
  | cons p rest ih =>
    simp only [List.map_cons, List.nodup_cons] at h
    by_cases hp : p.1 = k
    · subst hp
      cases hg : dictGet rest p.1 with
      | none => simp [dictRemove, hg]
      | some v =>
        exfalso
        apply h.1
        clear ih h
        induction rest with
        | nil => simp [dictGet] at hg
        | cons q qs ihq =>
          by_cases hq : q.1 = p.1
          · simp [hq]
          · simp [dictGet, hq] at hg
            simp [ihq hg]
    · simp [dictRemove, hp, dictGet, ih h.2]

/-! ## Incremental reconciliation theorems -/

/-- C5: during an incremental pass, a Modified file whose recomputed
content hash equals the hash stored in the loaded IndexState triggers no
chunker call, no embedding call and no store delete/upsert — the store,
the running hash map, the statistics and the call trace are untouched —
while a differing hash deletes the file's chunks from both collections and
freshly chunks, embeds and upserts the file, recording the new hash. -/
theorem modified_unchanged_hash_no_work (idx : IncrementalIndexer)
    (st : Store) (origFiles files : List (String × String))
    (change : FileChange) (hm : change.change_type = ChangeType.MODIFIED) :
    (dictGet origFiles change.path = some (computeFileHash idx change.path) →
      processChange idx st origFiles files change = (st, files, {}, []))
    ∧ (¬ dictGet origFiles change.path = some (computeFileHash idx change.path) →
      (processChange idx st origFiles files change).2.1 =
          dictSet files change.path (computeFileHash idx change.path)
      ∧ (processChange idx st origFiles files change).2.2.2 =
          (deleteFileChunks st change.path).2.2
            ++ (indexFile idx (deleteFileChunks st change.path).2.1
                  change.path).2.2
      ∧ (processChange idx st origFiles files change).1 =
          (indexFile idx (deleteFileChunks st change.path).2.1
            change.path).2.1) := by
  constructor
  · intro hh
    have hcond : some (computeFileHash idx change.path) =
        dictGet origFiles change.path := hh.symm
    simp [processChange, hm, hcond]
  · intro hh
    have hcond : ¬ some (computeFileHash idx change.path) =
        dictGet origFiles change.path := fun h2 => hh h2.symm
    simp [processChange, hm, hcond]

/-- A concrete indexer whose repository holds one file hashing to "h1". -/
def idxM : IncrementalIndexer :=
  { files := fun p => if p = "a.py" then some "body" else none,
    hashHex := fun _ => "h1",
    chunker := fun _ => [], embedder := fun _ => [],
    current_commit := "c1", nowIso := "t1",
    serialize := fun st => st.git_commit }

/-- A concrete store for the reconciliation witnesses. -/
def storeM : Store := { semantic := [], symbols := [] }

/-- A Modified report for the unchanged file. -/
def chM : FileChange := { path := "a.py", change_type := .MODIFIED }

/-- Witness for C5: the Modified file's stored hash equals the recomputed
one, so processing it is a no-op. -/
theorem modified_unchanged_hash_no_work_witness :
    processChange idxM storeM [("a.py", "h1")] [("a.py", "h1")] chM =
      (storeM, [("a.py", "h1")], {}, []) :=
  (modified_unchanged_hash_no_work idxM storeM [("a.py", "h1")]
    [("a.py", "h1")] chM rfl).1 (by rfl)

theorem renameFileChunks_no_embed (st : Store) (op : Option String)
    (np : String) :
    ((renameFileChunks st op np).2.all (fun t => ! t.isEmbedCall)) = true := by
  cases op with
  | none => simp [renameFileChunks, Effect.isEmbedCall]
  | some old =>
    by_cases h0 : (pointsForPath st.semantic old).take 1000 = []
    · simp [renameFileChunks, h0, Effect.isEmbedCall]
    · simp [renameFileChunks, h0, Effect.isEmbedCall]

theorem renameFileChunks_symbols (st : Store) (op : Option String)
    (np : String) : (renameFileChunks st op np).1.symbols = st.symbols := by
  cases op with
  | none => simp [renameFileChunks]
  | some old =>
    by_cases h0 : (pointsForPath st.semantic old).take 1000 = []
    · simp [renameFileChunks, h0]
    · simp [renameFileChunks, h0, storeUpsertOp]

theorem upsertInto_patched (np : String) (existing updated : List IndexPoint)
    (p : IndexPoint) (hp : p ∈ existing)
    (hex : ∃ u ∈ updated, u.id = p.id)
    (hall : ∀ u ∈ updated, u.payload.file_path = np) :
    ∃ p2 ∈ upsertInto existing updated,
      p2.id = p.id ∧ p2.payload.file_path = np := by
  have hsome : (updated.find? (fun q => q.id = p.id)).isSome := by
    rw [List.find?_isSome]
    obtain ⟨u, hu, hid⟩ := hex
    exact ⟨u, hu, by simp [hid]⟩
  obtain ⟨q, hfind⟩ := Option.isSome_iff_exists.mp hsome
  have hqid : q.id = p.id := by
    have h2 := List.find?_some hfind
    simpa using h2
  have hqmem : q ∈ updated := List.mem_of_find?_eq_some hfind
  refine ⟨q, ?_, hqid, hall q hqmem⟩
  unfold upsertInto
  apply List.mem_append_left
  have h3 := List.mem_map_of_mem (fun r : IndexPoint =>
    match updated.find? (fun q2 => q2.id = r.id) with
    | some q2 => q2
    | none => r) hp
  simpa [hfind] using h3

theorem renameFileChunks_patches (st : Store) (old np : String)
    (p : IndexPoint) (hp : p ∈ (pointsForPath st.semantic old).take 1000) :
    ∃ p2 ∈ (renameFileChunks st (some old) np).1.semantic,
      p2.id = p.id ∧ p2.payload.file_path = np := by
  have hpsem : p ∈ st.semantic :=
    (List.mem_filter.mp (List.mem_of_mem_take hp)).1
  have hM : ¬ ((pointsForPath st.semantic old).take 1000 = []) := by
    intro h0
    rw [h0] at hp
    cases hp
  have hsem : (renameFileChunks st (some old) np).1.semantic =
      upsertInto st.semantic (((pointsForPath st.semantic old).take 1000).map
        (fun q => { q with payload := { q.payload with file_path := np } })) := by
    simp only [renameFileChunks, hM, if_false, ite_false, if_neg,
      storeUpsertOp, if_pos]
  rw [hsem]
  apply upsertInto_patched np _ _ p hpsem
  · exact ⟨_, List.mem_map_of_mem _ hp, rfl⟩
  · intro u hu
    obtain ⟨p0, _, hq0⟩ := List.mem_map.mp hu
    rw [← hq0]

/-- C7 (amended): a Renamed file with a recorded old path is processed
without any embedding call; every point the (limit-1000) semantic-
collection scroll returns for the old path reappears in the resulting
store with its payload's file path patched to the new path; the symbol
collection is left untouched, so its copies keep the old path; and the
file's stored content hash moves from the old path to the new path in the
running map. -/
theorem renamed_patches_semantic_chunks (idx : IncrementalIndexer)
    (st : Store) (origFiles files : List (String × String))
    (change : FileChange) (old : String)
    (hm : change.change_type = ChangeType.RENAMED)
    (hop : change.old_path = some old)
    (hkeys : (files.map Prod.fst).Nodup)
    (hne : old ≠ change.path) :
    ((processChange idx st origFiles files change).2.2.2.all
        (fun t => ! t.isEmbedCall) = true)
    ∧ (processChange idx st origFiles files change).1.symbols = st.symbols
    ∧ (∀ p ∈ (pointsForPath st.semantic old).take 1000,
        ∃ p2 ∈ (processChange idx st origFiles files change).1.semantic,
          p2.id = p.id ∧ p2.payload.file_path = change.path)
    ∧ dictGet (processChange idx st origFiles files change).2.1 change.path =
        some (dictGetD files old "")
    ∧ dictGet (processChange idx st origFiles files change).2.1 old = none := by
  have hpc : processChange idx st origFiles files change =
      ((renameFileChunks st (some old) change.path).1,
       dictSet (dictRemove files old) change.path (dictGetD files old ""),
       { files_modified := 1 },
       (renameFileChunks st (some old) change.path).2) := by
    simp [processChange, hm, hop]
  rw [hpc]
  refine ⟨renameFileChunks_no_embed st (some old) change.path,
    renameFileChunks_symbols st (some old) change.path, ?_, ?_, ?_⟩
  · intro p hp
    exact renameFileChunks_patches st old change.path p hp
  · exact dictGet_dictSet_self _ _ _
  · rw [dictGet_dictSet_ne _ _ _ _ hne]
    exact dictGet_dictRemove_self files old hkeys

/-- The single stored chunk of `old.py`, present in both collections. -/
def pOld : IndexPoint :=
  { id := "p1", vector := [],
    payload :=
      { content := "def f(): pass", file_path := "old.py", start_line := 0,
        end_line := 0, chunk_type := "function", symbol_name := some "f",
        parent_symbol := none, docstring := none, signature := none,
        language := "python", tokens := 3, git_hash := "c0" } }

/-- A store holding that chunk in the semantic and symbol collections. -/
def storeR : Store := { semantic := [pOld], symbols := [pOld] }

/-- The rename report for that file. -/
def chR : FileChange :=
  { path := "new.py", change_type := .RENAMED, old_path := some "old.py" }

/-- C7 counterexample: after the rename is processed, the symbol-collection
copy of the file's chunk still carries the old path, so not every one of
the file's existing chunks in the store is patched to the new path. -/
theorem renamed_counterexample :
    (processChange idxW storeR [("old.py", "h1")] [("old.py", "h1")]
        chR).1.symbols = [pOld]
    ∧ pOld.payload.file_path = "old.py"
    ∧ ¬ pOld.payload.file_path = "new.py" := by
  decide

/-- Witness for the amended C7 at the concrete rename. -/
theorem renamed_patches_semantic_chunks_witness :
    ((processChange idxW storeR [("old.py", "h1")] [("old.py", "h1")]
        chR).2.2.2.all (fun t => ! t.isEmbedCall) = true)
    ∧ (processChange idxW storeR [("old.py", "h1")] [("old.py", "h1")]
        chR).1.symbols = storeR.symbols
    ∧ (∀ p ∈ (pointsForPath storeR.semantic "old.py").take 1000,
        ∃ p2 ∈ (processChange idxW storeR [("old.py", "h1")]
            [("old.py", "h1")] chR).1.semantic,
          p2.id = p.id ∧ p2.payload.file_path = chR.path)
    ∧ dictGet (processChange idxW storeR [("old.py", "h1")]
        [("old.py", "h1")] chR).2.1 chR.path = some (dictGetD
          [("old.py", "h1")] "old.py" "")
    ∧ dictGet (processChange idxW storeR [("old.py", "h1")]
        [("old.py", "h1")] chR).2.1 "old.py" = none :=
  renamed_patches_semantic_chunks idxW storeR [("old.py", "h1")]
    [("old.py", "h1")] chR "old.py" rfl rfl (by decide) (by decide)

/-! ## RRF merge theorems -/

theorem rrf_fold_phase1 (l : List (Nat × SearchResult))
    (z : List (String × ℚ) × List (String × SearchResult)) (key : String) :
    dictGetD (l.foldl (fun acc p =>
        (dictSet acc.1 (rrfKey p.2)
          (dictGetD acc.1 (rrfKey p.2) 0 + 1 / (60 + (p.1 : ℚ)) * (12/10)),
         dictSet acc.2 (rrfKey p.2) p.2)) z).1 key 0
      = dictGetD z.1 key 0
        + ((l.filter (fun p => rrfKey p.2 = key)).map
            (fun p => 1 / (60 + (p.1 : ℚ)) * (12/10))).sum := by
  induction l generalizing z with
  | nil => simp
  | cons p rest ih =>
    simp only [List.foldl_cons, List.filter_cons]
    by_cases hk : rrfKey p.2 = key
    · rw [ih]
      simp only [dictGetD, hk, dictGet_dictSet_self, Option.getD_some,
        decide_True, if_true, List.map_cons, List.sum_cons]
      ring
    · rw [ih]
      have hne : ¬ (key = rrfKey p.2) := fun h2 => hk h2.symm
      simp [dictGetD, dictGet_dictSet_ne _ _ _ _ hne, hk]

theorem rrf_fold_phase2 (l : List (Nat × SearchResult))
    (z : List (String × ℚ) × List (String × SearchResult)) (key : String) :
    dictGetD (l.foldl (fun acc p =>
        (dictSet acc.1 (rrfKey p.2)
          (dictGetD acc.1 (rrfKey p.2) 0 + 1 / (60 + (p.1 : ℚ))),
         if dictContains acc.2 (rrfKey p.2) then acc.2
         else dictSet acc.2 (rrfKey p.2) p.2)) z).1 key 0
      = dictGetD z.1 key 0
        + ((l.filter (fun p => rrfKey p.2 = key)).map
            (fun p => 1 / (60 + (p.1 : ℚ)))).sum := by
  induction l generalizing z with
  | nil => simp
  | cons p rest ih =>
    simp only [List.foldl_cons, List.filter_cons]
    by_cases hk : rrfKey p.2 = key
    · rw [ih]
      simp only [dictGetD, hk, dictGet_dictSet_self, Option.getD_some,
        decide_True, if_true, List.map_cons, List.sum_cons]
      ring
    · rw [ih]
      have hne : ¬ (key = rrfKey p.2) := fun h2 => hk h2.symm
      simp [dictGetD, dictGet_dictSet_ne _ _ _ _ hne, hk]

theorem mergeScores_formula (symbols semantic : List SearchResult)
    (key : String) :
    dictGetD (mergeScores symbols semantic).1 key 0 =
      ((symbols.enum.filter (fun p => rrfKey p.2 = key)).map
        (fun p => 1 / (60 + (p.1 : ℚ)) * (12/10))).sum
      + ((semantic.enum.filter (fun p => rrfKey p.2 = key)).map
        (fun p => 1 / (60 + (p.1 : ℚ)))).sum := by
  unfold mergeScores
  rw [rrf_fold_phase2, rrf_fold_phase1]
  simp [dictGetD, dictGet]

/-- A minimal stored document for the fusion example. -/
def mkDoc (idv fp : String) : SearchResult :=
  { id := idv, score := 0, content := "", file_path := fp,
    start_line := 1, end_line := 1 }

/-- Document A of the fusion example. -/
def docA : SearchResult := mkDoc "A" "A"

/-- Document B of the fusion example. -/
def docB : SearchResult := mkDoc "B" "B"

/-- Document C of the fusion example. -/
def docC : SearchResult := mkDoc "C" "C"

/-- Document D of the fusion example. -/
def docD : SearchResult := mkDoc "D" "D"

/-- Document E of the fusion example. -/
def docE : SearchResult := mkDoc "E" "E"

/-- Document F of the fusion example. -/
def docF : SearchResult := mkDoc "F" "F"

/-- Document G of the fusion example. -/
def docG : SearchResult := mkDoc "G" "G"

/-- The symbol-collection ranking [B,A,C,D,E] of the spec's example. -/
def symL : List SearchResult := [docB, docA, docC, docD, docE]

/-- The semantic-collection ranking [A,B,E,F,G] of the spec's example. -/
def semL : List SearchResult := [docA, docB, docE, docF, docG]

theorem mergeScoresEval_A :
    dictGetD (mergeScores symL semL).1 (rrfKey docA) 0 = (12/10)/61 + 1/60 := by
  have hA : rrfKey docA = "A:1" := rfl
  have hB : rrfKey docB = "B:1" := rfl
  have hC : rrfKey docC = "C:1" := rfl
  have hD : rrfKey docD = "D:1" := rfl
  have hE : rrfKey docE = "E:1" := rfl
  have hF : rrfKey docF = "F:1" := rfl
  have hG : rrfKey docG = "G:1" := rfl
  simp [mergeScores, symL, semL, hA, hB, hC, hD, hE, hF, hG,
    List.enum, List.enumFrom, dictGetD, dictGet, dictSet, dictContains]
  norm_num

theorem mergeScoresEval_C :
    dictGetD (mergeScores symL semL).1 (rrfKey docC) 0 = (12/10)/62 := by
  have hA : rrfKey docA = "A:1" := rfl
  have hB : rrfKey docB = "B:1" := rfl
  have hC : rrfKey docC = "C:1" := rfl
  have hD : rrfKey docD = "D:1" := rfl
  have hE : rrfKey docE = "E:1" := rfl
  have hF : rrfKey docF = "F:1" := rfl
  have hG : rrfKey docG = "G:1" := rfl
  simp [mergeScores, symL, semL, hA, hB, hC, hD, hE, hF, hG,
    List.enum, List.enumFrom, dictGetD, dictGet, dictSet, dictContains]
  norm_num

theorem mergeScoresEval_D :
    dictGetD (mergeScores symL semL).1 (rrfKey docD) 0 = (12/10)/63 := by
  have hA : rrfKey docA = "A:1" := rfl
  have hB : rrfKey docB = "B:1" := rfl
  have hC : rrfKey docC = "C:1" := rfl
  have hD : rrfKey docD = "D:1" := rfl
  have hE : rrfKey docE = "E:1" := rfl
  have hF : rrfKey docF = "F:1" := rfl
  have hG : rrfKey docG = "G:1" := rfl
  simp [mergeScores, symL, semL, hA, hB, hC, hD, hE, hF, hG,
    List.enum, List.enumFrom, dictGetD, dictGet, dictSet, dictContains]
  norm_num

theorem mergeScoresEval_F :
    dictGetD (mergeScores symL semL).1 (rrfKey docF) 0 = 1/63 := by
  have hA : rrfKey docA = "A:1" := rfl
  have hB : rrfKey docB = "B:1" := rfl
  have hC : rrfKey docC = "C:1" := rfl
  have hD : rrfKey docD = "D:1" := rfl
  have hE : rrfKey docE = "E:1" := rfl
  have hF : rrfKey docF = "F:1" := rfl
  have hG : rrfKey docG = "G:1" := rfl
  simp [mergeScores, symL, semL, hA, hB, hC, hD, hE, hF, hG,
    List.enum, List.enumFrom, dictGetD, dictGet, dictSet, dictContains]
  norm_num

theorem mergeScoresEval_G :
    dictGetD (mergeScores symL semL).1 (rrfKey docG) 0 = 1/64 := by
  have hA : rrfKey docA = "A:1" := rfl
  have hB : rrfKey docB = "B:1" := rfl
  have hC : rrfKey docC = "C:1" := rfl
  have hD : rrfKey docD = "D:1" := rfl
  have hE : rrfKey docE = "E:1" := rfl
  have hF : rrfKey docF = "F:1" := rfl
  have hG : rrfKey docG = "G:1" := rfl
  simp [mergeScores, symL, semL, hA, hB, hC, hD, hE, hF, hG,
    List.enum, List.enumFrom, dictGetD, dictGet, dictSet, dictContains]
  norm_num

theorem mergeResults_top2 :
    ((mergeResults symL semL 10).map (fun r => r.id)).take 2 = ["B", "A"] := by
  have hA : rrfKey docA = "A:1" := rfl
  have hB : rrfKey docB = "B:1" := rfl
  have hC : rrfKey docC = "C:1" := rfl
  have hD : rrfKey docD = "D:1" := rfl
  have hE : rrfKey docE = "E:1" := rfl
  have hF : rrfKey docF = "F:1" := rfl
  have hG : rrfKey docG = "G:1" := rfl
  simp [mergeResults, mergeScores, symL, semL, hA, hB, hC, hD, hE, hF, hG,
    List.enum, List.enumFrom, dictGetD, dictGet, dictSet, dictContains,
    dictKeys, sortDescBy, insertDescBy, List.filterMap_cons, Option.map]
  iterate 16
    try norm_num [insertDescBy, List.filterMap_cons, Option.map, dictGet,
      docA, docB, docC, docD, docE, docF, docG, mkDoc]
    try simp [insertDescBy, List.filterMap_cons, Option.map, dictGet,
      docA, docB, docC, docD, docE, docF, docG, mkDoc]

/-- C6 counterexample: in the repository's own rank fusion
(`MultiLevelSearch._merge_results`), for the spec's example lists document
A does not score `1/61 + 1/62` (the symbol list is boosted by 1.2 and
ranks are 0-based), and the fused top-2 is not `[A, B]`. -/
theorem merge_results_rrf_counterexample :
    (dictGetD (mergeScores symL semL).1 (rrfKey docA) 0 ≠ 1/61 + 1/62)
    ∧ ((mergeResults symL semL 10).map (fun r => r.id)).take 2 ≠ ["A", "B"] := by
  constructor
  · rw [mergeScoresEval_A]
    norm_num
  · rw [mergeResults_top2]
    decide

/-- C6 (amended): when `MultiLevelSearch._merge_results` fuses the
symbol-collection and semantic-collection rankings, each candidate's fused
score equals the sum of `1.2 × 1/(60 + rank)` over its occurrences in the
symbol list and `1/(60 + rank)` over its occurrences in the semantic list,
with 0-based ranks; in particular, for symbol ranking [B,A,C,D,E] and
semantic ranking [A,B,E,F,G], document A scores `1.2/61 + 1/60`, that
score exceeds the score of any document appearing in only one list at a
lower rank (C, D, F, G), and the fused top-2 is `[B, A]`. -/
theorem merge_results_boosted_rrf :
    (∀ (symbols semantic : List SearchResult) (key : String),
      dictGetD (mergeScores symbols semantic).1 key 0 =
        ((symbols.enum.filter (fun p => rrfKey p.2 = key)).map
          (fun p => 1 / (60 + (p.1 : ℚ)) * (12/10))).sum
        + ((semantic.enum.filter (fun p => rrfKey p.2 = key)).map
          (fun p => 1 / (60 + (p.1 : ℚ)))).sum)
    ∧ dictGetD (mergeScores symL semL).1 (rrfKey docA) 0 = (12/10)/61 + 1/60
    ∧ dictGetD (mergeScores symL semL).1 (rrfKey docA) 0 >
        dictGetD (mergeScores symL semL).1 (rrfKey docC) 0
    ∧ dictGetD (mergeScores symL semL).1 (rrfKey docA) 0 >
        dictGetD (mergeScores symL semL).1 (rrfKey docD) 0
    ∧ dictGetD (mergeScores symL semL).1 (rrfKey docA) 0 >
        dictGetD (mergeScores symL semL).1 (rrfKey docF) 0
    ∧ dictGetD (mergeScores symL semL).1 (rrfKey docG) 0 <
        dictGetD (mergeScores symL semL).1 (rrfKey docA) 0
    ∧ ((mergeResults symL semL 10).map (fun r => r.id)).take 2 = ["B", "A"] := by
  refine ⟨mergeScores_formula, mergeScoresEval_A, ?_, ?_, ?_, ?_,
    mergeResults_top2⟩
  · rw [mergeScoresEval_A, mergeScoresEval_C]
    norm_num
  · rw [mergeScoresEval_A, mergeScoresEval_D]
    norm_num
  · rw [mergeScoresEval_A, mergeScoresEval_F]
    norm_num
  · rw [mergeScoresEval_A, mergeScoresEval_G]
    norm_num

/-! ## Dedup-law theorems -/

/-- Modelled from the spec: the dedup law — no two chunks in a final result
set from the same file have overlapping line ranges. -/
def DedupLaw (l : List ContextChunk) : Prop :=
  l.Pairwise (fun a b => a.file_path = b.file_path → chunksOverlap a b = false)

/-- A tokenizer whose encodings are empty (token counts 0). -/
def tok0 : Tokenizer := { encode := fun _ => [], decode := fun _ => "" }

/-- An assembler with that tokenizer and the default budget. -/
def AC4 : ContextAssembler := { tokenizer := tok0 }

/-- The best-scoring hit: lines 1–5 of f.py. -/
def rA4 : SearchResult :=
  { id := "a", score := 9/10, content := "aa", file_path := "f.py",
    start_line := 1, end_line := 5 }

/-- The middle hit: lines 10–15 of f.py. -/
def rB4 : SearchResult :=
  { id := "b", score := 7/10, content := "bb", file_path := "f.py",
    start_line := 10, end_line := 15 }

/-- The lowest-scoring but most-encompassing hit: lines 1–20 of f.py. -/
def rC4 : SearchResult :=
  { id := "c", score := 11/20, content := "cc", file_path := "f.py",
    start_line := 1, end_line := 20 }

/-- The context chunk the assembler keeps for the middle hit. -/
def chB4 : ContextChunk :=
  { content := "bb", file_path := "f.py", start_line := 10, end_line := 15,
    priority := .MEDIUM, relevance_score := 7/10, token_count := 0 }

/-- The context chunk the assembler keeps for the encompassing hit. -/
def chC4 : ContextChunk :=
  { content := "cc", file_path := "f.py", start_line := 1, end_line := 20,
    priority := .LOW, relevance_score := 11/20, token_count := 0 }

/-- C4: the dedup law fails on the assembler: when a lower-scored chunk
contains the first chunk it overlaps, `_deduplicate` replaces that chunk
but never re-checks the remaining kept chunks, so the final
`AssembledContext` can retain two overlapping chunks of the same file —
here lines 10–15 and lines 1–20 of f.py both survive. -/
theorem assembler_dedup_violation :
    ¬ DedupLaw (assemble AC4 [rA4, rB4, rC4] "q").chunks := by
  have hchunks : (assemble AC4 [rA4, rB4, rC4] "q").chunks = [chB4, chC4] := by
    simp [assemble, createChunks, determinePriority, deduplicate, dedupStep,
      sortDescBy, insertDescBy, ContextChunk.effective_score,
      ContextPriority.value, applyBudget, applyBudgetGo, orderForPrompt,
      sortAscBy, insertAscBy, chunksOverlap, chunkContains,
      ContextAssembler.count_tokens, AC4, tok0, rA4, rB4, rC4, strIn,
      charsContain, charsStartWith, chB4, chC4]
    iterate 10
      try norm_num [chB4, chC4, sortDescBy, insertDescBy, applyBudgetGo,
        orderForPrompt, sortAscBy, insertAscBy, ContextChunk.effective_score,
        ContextPriority.value, dedupStep, chunksOverlap, chunkContains]
      try simp [chB4, chC4, sortDescBy, insertDescBy, applyBudgetGo,
        orderForPrompt, sortAscBy, insertAscBy, ContextChunk.effective_score,
        ContextPriority.value, dedupStep, chunksOverlap, chunkContains]
  rw [hchunks]
  intro hlaw
  have h1 := (List.pairwise_cons.mp hlaw).1 chC4 (by simp)
  have h2 := h1 (by rw [chB4, chC4])
  simp [chunksOverlap, chB4, chC4] at h2

/-! ## Chunker determinism theorems -/

/-- C2: chunking is deterministic and idempotent: two runs of `chunkFile`
on identical inputs produce identical chunk ids and line spans; every
produced chunk's id is `compute_id` of its own (kind, path, symbol,
content) fields; and any two produced chunks agreeing on kind, path,
symbol name and content receive the same id. -/
theorem chunk_file_deterministic (hexdigest : String → String)
    (lang path content : String) (tree : PyNode) :
    ((chunkFile hexdigest lang path content tree).map
        (fun c => (c.id, c.start_line, c.end_line)) =
      (chunkFile hexdigest lang path content tree).map
        (fun c => (c.id, c.start_line, c.end_line)))
    ∧ (∀ c ∈ chunkFile hexdigest lang path content tree,
        c.id = computeId hexdigest c)
    ∧ (∀ c ∈ chunkFile hexdigest lang path content tree,
       ∀ c2 ∈ chunkFile hexdigest lang path content tree,
        c.chunk_type = c2.chunk_type → c.file_path = c2.file_path →
        c.symbol_name = c2.symbol_name → c.content = c2.content →
        c.id = c2.id) := by
  have hid : ∀ c ∈ chunkFile hexdigest lang path content tree,
      c.id = computeId hexdigest c := by
    intro c hc
    unfold chunkFile at hc
    obtain ⟨c0, hc0, rfl⟩ := List.mem_map.mp hc
    rfl
  refine ⟨rfl, hid, ?_⟩
  intro c hc c2 hc2 h1 h2 h3 h4
  rw [hid c hc, hid c2 hc2]
  unfold computeId
  rw [h1, h2, h3, h4]

/-- A constant stand-in for the sha256 hexdigest collaborator. -/
def hexC2 : String → String := fun _ => "0123456789abcdefXYZ"

/-- The parse tree of the file `"import os\n"`. -/
def treeC2 : PyNode :=
  .mk "module" 0 0 1 0 0 10
    [ .mk "import_statement" 0 0 0 9 0 9
        [ .mk "dotted_name" 0 7 0 9 7 9 [] ] ]

/-- That file's content. -/
def contC2 : String := "import os\n"

/-- The Module chunk `chunkFile` produces for it. -/
def modC2 : CodeChunk :=
  { id := "module_0123456789abcdef", file_path := "a.py",
    chunk_type := .MODULE, start_line := 0, end_line := 0, start_byte := 0,
    end_byte := 9, content := "import os", language := "python",
    tokens_estimate := 2 }

/-- Witness for C2 at a concrete file and parse tree. -/
theorem chunk_file_deterministic_witness :
    modC2.id = computeId hexC2 modC2 ∧ modC2.id = modC2.id :=
  ⟨(chunk_file_deterministic hexC2 "python" "a.py" contC2 treeC2).2.1
      modC2 (by decide),
   (chunk_file_deterministic hexC2 "python" "a.py" contC2 treeC2).2.2
      modC2 (by decide) modC2 (by decide) rfl rfl rfl rfl⟩
